import Mathlib

/-!
# Daily_News: the news data manager (`src/data-manager.js`)

A shallow embedding of the class `NewsDataManager` and the properties of its
operations.

Modelling decisions.

* `localStorage` holds a text under the fixed key `photovoltaic_news_data`.
  The text is represented by what `JSON.parse` makes of it (`Text`): the empty
  text, a text that `JSON.parse` rejects, or the JSON value it parses to.
  `JSON.stringify` followed by `JSON.parse` is the identity on JSON values, so
  writing `JSON.stringify(data)` leaves the store holding `Text.json data`.
* JavaScript values that are not JSON data (`undefined`, functions and objects
  of the host) appear only as results of property reads (`Val`).
* What the host supplies and the repository does not define is a parameter
  (`Host`): members inherited from the built-in prototypes of arrays and
  primitives, date formatting, the page origin.
* The clock is read by `new Date()`; each reading is an argument (the ISO text
  `toISOString()` gives at that moment).
* `localStorage.setItem` may throw (quota); whether it accepts the write is the
  argument `writeOk`.
* A number is represented by the text `Number::toString` gives it
  (`JsNumber`), which is what a template literal and `JSON.stringify` write
  and what decides its truthiness; no arithmetic is done on numbers. The
  positions of an array are below `2^32`, where that text is the decimal
  numeral.
-/

namespace DailyNews

/-! ## Values -/

/-- A JavaScript number, given by the text `Number::toString` yields for it:
`2` is `"2"`, `1.5` is `"1.5"`, `1e21` is `"1e+21"`, `NaN` is `"NaN"`. Distinct
numbers have distinct texts, except that `0` and `-0` both give `"0"`. -/
structure JsNumber where
  text : String

/-- JSON data: what `JSON.parse` returns. -/
inductive Json where
  | null
  | bool (b : Bool)
  | num (n : JsNumber)
  | str (s : String)
  | arr (items : List Json)
  | obj (fields : List (String × Json))

/-- A JavaScript value as the module meets it: JSON data, `undefined`, or a
function or object of the host reached through a prototype (`native`). -/
inductive Val where
  | undefined
  | native
  | json (j : Json)

/-- The exceptions that occur: a `TypeError` (property access on `null` or
`undefined`, strict-mode assignment to a primitive, failed conversion to a
primitive), the `SyntaxError` of `JSON.parse`, and a failed file read. -/
inductive JsError where
  | typeError
  | parseError
  | readError

/-- A text, seen through `JSON.parse`: the empty text (falsy, and rejected by
the parser), a non-empty text the parser rejects, or a text that parses to
`j`. -/
inductive Text where
  | empty
  | malformed
  | json (j : Json)

/-- The content of `localStorage` under `storageKey`: `none` when the key is
absent (`getItem` returns `null`). -/
abbrev Store := Option Text

/-- A value the host supplies on a property read: nothing (`undefined`), a
function or object of its own, a number (the length of a string) or a string
(a character of a string). -/
inductive Supplied where
  | nothing
  | native
  | num (n : JsNumber)
  | str (s : String)

/-- The supplied value as a JavaScript value. -/
def Supplied.val : Supplied → Val
  | .nothing => .undefined
  | .native => .native
  | .num n => .json (.num n)
  | .str s => .json (.str s)

/-- What the host environment supplies. -/
structure Host where
  /-- The value found for `key` on a receiver that has no own JSON property of
  that name and is not a plain object: a member inherited from a built-in
  prototype, the length or a character of a string; nothing when there is
  none. -/
  member : Val → String → Supplied
  /-- The text of `new Date(v)` as month and day, in the source's template
  `(getMonth() + 1)月(getDate())日`, for a primitive `v`. -/
  monthDay : Val → String
  /-- The text of `new Date(v).toLocaleString("zh-CN")` for a primitive `v`. -/
  localeString : Val → String
  /-- The page origin, `window.location.origin`. -/
  origin : String
  /-- The text a host function converts to. -/
  nativeText : String

/-- The member names of `Object.prototype`, inherited by every plain object. -/
def objectPrototype : List String :=
  ["constructor", "__defineGetter__", "__defineSetter__", "hasOwnProperty",
   "__lookupGetter__", "__lookupSetter__", "isPrototypeOf", "propertyIsEnumerable",
   "toString", "valueOf", "__proto__", "toLocaleString"]

/-- JavaScript truthiness. -/
def truthy : Val → Bool
  | .undefined => false
  | .native => true
  | .json .null => false
  | .json (.bool b) => b
  | .json (.num n) => decide (n.text ≠ "0" ∧ n.text ≠ "NaN")
  | .json (.str s) => decide (s ≠ "")
  | .json (.arr _) => true
  | .json (.obj _) => true

/-- The value of the first field named `k`. -/
def lookup : List (String × Json) → String → Option Json
  | [], _ => none
  | (k', v) :: rest, k => if k' = k then some v else lookup rest k

/-- The element of an array whose index, written in decimal from `i` on, is
the key `k`. -/
def elemAt : List Json → Nat → String → Option Json
  | [], _, _ => none
  | x :: rest, i, k => if toString i = k then some x else elemAt rest (i + 1) k

/-- The own property `k` of JSON data: a field of an object, an element or the
length of an array. -/
def ownProperty : Json → String → Option Json
  | .obj fs, k => lookup fs k
  | .arr xs, k => if k = "length" then some (.num ⟨toString xs.length⟩) else elemAt xs 0 k
  | _, _ => none

/-- What a read of `k` finds beyond the own properties. -/
def inherited (R : Host) (j : Json) (k : String) : Val :=
  match j with
  | .obj _ => if k ∈ objectPrototype then .native else .undefined
  | _ => (R.member (.json j) k).val

/-- The property read `v[k]`. -/
def getProp (R : Host) (v : Val) (k : String) : Except JsError Val :=
  match v with
  | .undefined => .error .typeError
  | .json .null => .error .typeError
  | .native => .ok (R.member .native k).val
  | .json j =>
    match ownProperty j k with
    | some x => .ok (.json x)
    | none => .ok (inherited R j k)

/-- Replace the first field named `k`, or add the field at the end. -/
def setField : List (String × Json) → String → Json → List (String × Json)
  | [], k, v => [(k, v)]
  | (k', v') :: rest, k, v => if k' = k then (k, v) :: rest else (k', v') :: setField rest k v

/-- Replace the element of an array whose index is the key `k`. -/
def setElem : List Json → Nat → String → Json → List Json
  | [], _, _, _ => []
  | x :: rest, i, k, v => if toString i = k then v :: rest else x :: setElem rest (i + 1) k v

/-- The strict-mode assignment `receiver[key] = value` for a key that is not an
array index nor `length` (the keys written are `news…` and `lastUpdate`): an
object takes the field; an array takes a named property that
`JSON.stringify` does not write; `null` and primitives raise. -/
def putNamed (receiver : Json) (key : String) (value : Json) : Except JsError Json :=
  match receiver with
  | .obj fs => .ok (.obj (setField fs key value))
  | .arr xs => .ok (.arr xs)
  | _ => .error .typeError

/-- The data after its own property `k` was mutated in place to `v`. -/
def replaceOwn (data : Json) (k : String) (v : Json) : Json :=
  match data with
  | .obj fs => .obj (setField fs k v)
  | .arr xs => .arr (setElem xs 0 k v)
  | other => other

/-- The assignment `data[category][newsKey] = item`, performed when
`data[category][newsKey]` was read as truthy. A receiver that is an own
property of `data` is mutated inside `data`; a receiver supplied by the host
is not part of the data. -/
def putSlot (R : Host) (data : Json) (category newsKey : String) (item : Json) :
    Except JsError Json :=
  match ownProperty data category with
  | some sec =>
    match putNamed sec newsKey item with
    | .ok sec' => .ok (replaceOwn data category sec')
    | .error e => .error e
  | none =>
    match inherited R data category with
    | .json p =>
      match putNamed p newsKey item with
      | .ok _ => .ok data
      | .error e => .error e
    | .native => .ok data
    | .undefined => .error .typeError

/-- The object literal `{ title: t, link: l }` as `JSON.stringify` writes it:
a field whose value is `undefined` or a function is left out. The object is
only ever read back through `JSON.stringify`. -/
def record (fields : List (String × Val)) : Json :=
  .obj (fields.filterMap fun f =>
    match f.2 with
    | .json j => some (f.1, j)
    | _ => none)

/-- The operator `a || b`. -/
def orElse (a b : Val) : Val :=
  if truthy a then a else b

mutual
/-- The conversion `ToString` on JSON data, as a template literal applies it.
A plain object converts through `Object.prototype.toString`; an own field
`toString` shadows it with a value that is not callable, and the conversion
raises. An array converts through `join`. -/
def Json.text : Json → Except JsError String
  | .null => .ok "null"
  | .bool b => .ok (if b then "true" else "false")
  | .num n => .ok n.text
  | .str s => .ok s
  | .arr xs => Json.joined xs
  | .obj fs => if (lookup fs "toString").isSome then .error .typeError else .ok "[object Object]"
/-- The text of `Array.prototype.join` with the separator `,`. -/
def Json.joined : List Json → Except JsError String
  | [] => .ok ""
  | x :: rest =>
    match Json.element x, Json.joinedMore rest with
    | .ok a, .ok b => .ok (a ++ b)
    | .error e, _ => .error e
    | _, .error e => .error e
/-- The elements after the first, each preceded by the separator. -/
def Json.joinedMore : List Json → Except JsError String
  | [] => .ok ""
  | x :: rest =>
    match Json.element x, Json.joinedMore rest with
    | .ok a, .ok b => .ok ("," ++ a ++ b)
    | .error e, _ => .error e
    | _, .error e => .error e
/-- An element inside `join`: `null` gives the empty text. -/
def Json.element : Json → Except JsError String
  | .null => .ok ""
  | .bool b => .ok (if b then "true" else "false")
  | .num n => .ok n.text
  | .str s => .ok s
  | .arr xs => Json.joined xs
  | .obj fs => if (lookup fs "toString").isSome then .error .typeError else .ok "[object Object]"
end

/-- The conversion `ToString` of a template literal. -/
def toStr (R : Host) : Val → Except JsError String
  | .undefined => .ok "undefined"
  | .native => .ok R.nativeText
  | .json j => j.text

/-- The conversion `ToPrimitive` performed by `new Date(v)`: arrays and
objects become their text, a primitive stays. -/
def toPrimitive (R : Host) : Val → Except JsError Val
  | .undefined => .ok .undefined
  | .native => .ok (.json (.str R.nativeText))
  | .json (.arr xs) => (Json.text (.arr xs)).map fun s => .json (.str s)
  | .json (.obj fs) => (Json.text (.obj fs)).map fun s => .json (.str s)
  | .json j => .ok (.json j)

/-- The date part of an ISO time text: `iso.split("T")[0]`. -/
def isoDate (iso : String) : String :=
  String.mk (iso.data.takeWhile fun c => c != 'T')

/-! ## The data manager -/

/-- The placeholder item of the default digest. -/
def placeholder : Json :=
  .obj [("title", .str "请更新新闻标题"), ("link", .str "#")]

/-- A section of the default digest. -/
def defaultSection : Json :=
  .obj [("news1", placeholder), ("news2", placeholder), ("news3", placeholder)]

/-- The method `getDefaultData`, with `today` the clock reading. -/
def getDefaultData (today : String) : Json :=
  .obj [("date", .str (isoDate today)),
        ("lastUpdate", .str today),
        ("policy", defaultSection),
        ("industry", defaultSection),
        ("tech", defaultSection)]

/-- The method `loadData`: the parsed stored text; the default digest when the
key is absent, the text is empty, or parsing raises. -/
def loadData (store : Store) (now : String) : Json :=
  match store with
  | none => getDefaultData now
  | some .empty => getDefaultData now
  | some .malformed => getDefaultData now
  | some (.json j) => j

/-- The method `saveData`: stamps `lastUpdate`, writes the serialized data.
Every exception is caught and reported as `false`. -/
def saveData (store : Store) (now : String) (writeOk : Bool) (data : Json) : Bool × Store :=
  match putNamed data "lastUpdate" (.str now) with
  | .error _ => (false, store)
  | .ok stamped => if writeOk then (true, some (.json stamped)) else (false, store)

/-- The method `updateSingleNews`. `tLoad` and `tSave` are the clock readings
of `loadData` and `saveData`. An exception leaves the store as it was: the
only write is the last step of `saveData`. -/
def updateSingleNews (R : Host) (store : Store) (tLoad tSave : String) (writeOk : Bool)
    (category : String) (newsNumber : JsNumber) (title link : String) :
    Except JsError Bool × Store :=
  let data := loadData store tLoad
  let newsKey := "news" ++ newsNumber.text
  match getProp R (.json data) category with
  | .error e => (.error e, store)
  | .ok sec =>
    if truthy sec then
      match getProp R sec newsKey with
      | .error e => (.error e, store)
      | .ok slot =>
        if truthy slot then
          match putSlot R data category newsKey (.obj [("title", .str title), ("link", .str link)]) with
          | .error e => (.error e, store)
          | .ok data' =>
            let r := saveData store tSave writeOk data'
            (.ok r.1, r.2)
        else (.ok false, store)
    else (.ok false, store)

/-- The callback of `newsArray.forEach` in `updateCategoryNews`, for the item
`news` at position `index`. -/
def updateSlot (R : Host) (category : String) (data : Json) (news : Val) (index : Nat) :
    Except JsError Json :=
  let newsKey := "news" ++ toString (index + 1)
  if truthy news then
    match getProp R (.json data) category with
    | .error e => .error e
    | .ok sec =>
      match getProp R sec newsKey with
      | .error e => .error e
      | .ok slot =>
        if truthy slot then
          match getProp R news "title", getProp R slot "title",
                getProp R news "link", getProp R slot "link" with
          | .ok nt, .ok st, .ok nl, .ok sl =>
            putSlot R data category newsKey
              (record [("title", orElse nt st), ("link", orElse nl sl)])
          | _, _, _, _ => .error .typeError
        else .ok data
  else .ok data

/-- The loop `newsArray.forEach`, from position `index` on. -/
def forEachNews (R : Host) (category : String) : List Val → Nat → Json → Except JsError Json
  | [], _, data => .ok data
  | news :: rest, index, data =>
    match updateSlot R category data news index with
    | .error e => .error e
    | .ok data' => forEachNews R category rest (index + 1) data'

/-- The method `updateCategoryNews`. -/
def updateCategoryNews (R : Host) (store : Store) (tLoad tSave : String) (writeOk : Bool)
    (category : String) (newsArray : List Val) : Except JsError Bool × Store :=
  let data := loadData store tLoad
  match getProp R (.json data) category with
  | .error e => (.error e, store)
  | .ok sec =>
    if truthy sec then
      match forEachNews R category newsArray 0 data with
      | .error e => (.error e, store)
      | .ok data' =>
        let r := saveData store tSave writeOk data'
        (.ok r.1, r.2)
    else (.ok false, store)

/-- A value passed as `newsArray`: an array of values, or a value that has no
method `forEach` (`undefined`, `null`, a primitive, a plain object). -/
inductive NewsArray where
  | array (items : List Val)
  | notArray

/-- The method `updateCategoryNews` for an argument of any kind. With an array
it is `updateCategoryNews`. With a value that has no `forEach`, the call
`newsArray.forEach(…)` raises a `TypeError` once the guard `data[category]`
has passed; nothing was written before. -/
def updateCategoryNewsWith (R : Host) (store : Store) (tLoad tSave : String) (writeOk : Bool)
    (category : String) (newsArray : NewsArray) : Except JsError Bool × Store :=
  match newsArray with
  | .array items => updateCategoryNews R store tLoad tSave writeOk category items
  | .notArray =>
    let data := loadData store tLoad
    match getProp R (.json data) category with
    | .error e => (.error e, store)
    | .ok sec => if truthy sec then (.error .typeError, store) else (.ok false, store)

/-- The method `importFromJSON`: `file` is the text the reader delivers,
`none` when reading fails. The result is the settled promise: the parsed data
(stamped by `saveData` when that is possible) or the rejection. -/
def importFromJSON (store : Store) (now : String) (writeOk : Bool) (file : Option Text) :
    Except JsError Json × Store :=
  match file with
  | none => (.error .readError, store)
  | some .empty => (.error .parseError, store)
  | some .malformed => (.error .parseError, store)
  | some (.json data) =>
    let r := saveData store now writeOk data
    match putNamed data "lastUpdate" (.str now) with
    | .ok stamped => (.ok stamped, r.2)
    | .error _ => (.ok data, r.2)

/-- The method `clearData`. -/
def clearData (_store : Store) : Store :=
  none

/-! ## Renderers -/

/-- A section record of the API object. -/
structure ApiSection where
  name : String
  type : String
  news : List Val

/-- The object `generateAPIData` returns. -/
structure ApiData where
  title : String
  subtitle : String
  date : Val
  updateTime : Val
  sections : List ApiSection

/-- The read `data[section][slot]`. -/
def slotOf (R : Host) (data : Json) (section_ slot : String) : Except JsError Val :=
  match getProp R (.json data) section_ with
  | .error e => .error e
  | .ok sec => getProp R sec slot

/-- The three reads `data[section].news1`, `.news2`, `.news3`. -/
def newsOf (R : Host) (data : Json) (section_ : String) : Except JsError (List Val) :=
  match slotOf R data section_ "news1", slotOf R data section_ "news2",
        slotOf R data section_ "news3" with
  | .ok a, .ok b, .ok c => .ok [a, b, c]
  | .error e, _, _ => .error e
  | _, .error e, _ => .error e
  | _, _, .error e => .error e

/-- The method `generateAPIData`. -/
def generateAPIData (R : Host) (store : Store) (now : String) : Except JsError ApiData :=
  let data := loadData store now
  match getProp R (.json data) "date", getProp R (.json data) "lastUpdate",
        newsOf R data "policy", newsOf R data "industry", newsOf R data "tech" with
  | .ok date, .ok updateTime, .ok p, .ok i, .ok t =>
    .ok { title := "光伏早报"
          subtitle := "30秒速读前沿新闻"
          date := date
          updateTime := updateTime
          sections := [⟨"宏观政策", "policy", p⟩, ⟨"产经动态", "industry", i⟩,
                       ⟨"产技创新", "tech", t⟩] }
  | .error e, _, _, _, _ => .error e
  | _, .error e, _, _, _ => .error e
  | _, _, .error e, _, _ => .error e
  | _, _, _, .error e, _ => .error e
  | _, _, _, _, .error e => .error e

/-- The text of `data[section][slot][field]` inside a template literal. -/
def fieldText (R : Host) (data : Json) (section_ slot field : String) :
    Except JsError String :=
  match slotOf R data section_ slot with
  | .error e => .error e
  | .ok item =>
    match getProp R item field with
    | .error e => .error e
    | .ok v => toStr R v

/-- The header date: `new Date(data.date)` rendered as month and day. -/
def dateStr (R : Host) (data : Json) : Except JsError String :=
  match getProp R (.json data) "date" with
  | .error e => .error e
  | .ok d =>
    match toPrimitive R d with
    | .error e => .error e
    | .ok p => .ok (R.monthDay p)

/-- The three numbered title lines of a section in `generateWeChatMessage`. -/
def titleLines (R : Host) (data : Json) (section_ : String) : Except JsError String :=
  match fieldText R data section_ "news1" "title", fieldText R data section_ "news2" "title",
        fieldText R data section_ "news3" "title" with
  | .ok a, .ok b, .ok c => .ok ("1. " ++ a ++ "\n" ++ "2. " ++ b ++ "\n" ++ "3. " ++ c ++ "\n")
  | .error e, _, _ => .error e
  | _, .error e, _ => .error e
  | _, _, .error e => .error e

/-- The method `generateWeChatMessage`. -/
def generateWeChatMessage (R : Host) (store : Store) (now : String) : Except JsError String :=
  let data := loadData store now
  match dateStr R data, titleLines R data "policy", titleLines R data "industry",
        titleLines R data "tech" with
  | .ok d, .ok p, .ok i, .ok t =>
    .ok ("【光伏早报】" ++ d ++ "\n" ++ "━━━━━━━━━━━━\n\n"
      ++ "📊 宏观政策\n" ++ p ++ "\n"
      ++ "💼 产经动态\n" ++ i ++ "\n"
      ++ "🔬 产技创新\n" ++ t ++ "\n"
      ++ "━━━━━━━━━━━━\n"
      ++ "详情点击：" ++ R.origin ++ "/index.html")
  | .error e, _, _, _ => .error e
  | _, .error e, _, _ => .error e
  | _, _, .error e, _ => .error e
  | _, _, _, .error e => .error e

/-- One numbered Markdown link, `n. [title](link)` and a line break. -/
def linkLine (R : Host) (data : Json) (section_ : String) (n : String) :
    Except JsError String :=
  match fieldText R data section_ ("news" ++ n) "title",
        fieldText R data section_ ("news" ++ n) "link" with
  | .ok t, .ok l => .ok (n ++ ". [" ++ t ++ "](" ++ l ++ ")\n")
  | .error e, _ => .error e
  | _, .error e => .error e

/-- The three numbered link lines of a section in `generateMarkdown`. -/
def linkLines (R : Host) (data : Json) (section_ : String) : Except JsError String :=
  match linkLine R data section_ "1", linkLine R data section_ "2",
        linkLine R data section_ "3" with
  | .ok a, .ok b, .ok c => .ok (a ++ b ++ c)
  | .error e, _, _ => .error e
  | _, .error e, _ => .error e
  | _, _, .error e => .error e

/-- The method `generateMarkdown`. -/
def generateMarkdown (R : Host) (store : Store) (now : String) : Except JsError String :=
  let data := loadData store now
  match dateStr R data, linkLines R data "policy", linkLines R data "industry",
        linkLines R data "tech" with
  | .ok d, .ok p, .ok i, .ok t =>
    .ok ("# 光伏早报 " ++ d ++ "\n\n" ++ "> 30秒速读前沿新闻\n\n"
      ++ "## 📊 宏观政策\n" ++ p ++ "\n"
      ++ "## 💼 产经动态\n" ++ i ++ "\n"
      ++ "## 🔬 产技创新\n" ++ t)
  | .error e, _, _, _ => .error e
  | _, .error e, _, _ => .error e
  | _, _, .error e, _ => .error e
  | _, _, _, .error e => .error e

/-- The method `isToday`: `tLoad` is the clock reading of `loadData`, `now`
that of the comparison. The comparison `===` holds for a string equal to
today's date only. -/
def isToday (R : Host) (store : Store) (tLoad now : String) : Except JsError Bool :=
  let data := loadData store tLoad
  let today := isoDate now
  match getProp R (.json data) "date" with
  | .error e => .error e
  | .ok (.json (.str s)) => .ok (decide (s = today))
  | .ok _ => .ok false

/-- The method `getLastUpdateTime`. -/
def getLastUpdateTime (R : Host) (store : Store) (now : String) : Except JsError String :=
  let data := loadData store now
  match getProp R (.json data) "lastUpdate" with
  | .error e => .error e
  | .ok u =>
    if truthy u then
      match toPrimitive R u with
      | .error e => .error e
      | .ok p => .ok (R.localeString p)
    else .ok "未知"

/-! ## The digest shape and the notions the properties are stated with -/

/-- A news item of the data model: a title and a link. -/
structure NewsItem where
  title : String
  link : String

/-- A section of the data model: the slots `news1`, `news2`, `news3`. -/
structure Section where
  news1 : NewsItem
  news2 : NewsItem
  news3 : NewsItem

/-- A digest of the data model. -/
structure NewsDigest where
  date : String
  lastUpdate : String
  policy : Section
  industry : Section
  tech : Section

/-- The JSON object of a news item. -/
def NewsItem.toJson (i : NewsItem) : Json :=
  .obj [("title", .str i.title), ("link", .str i.link)]

/-- The JSON object of a section. -/
def Section.toJson (s : Section) : Json :=
  .obj [("news1", s.news1.toJson), ("news2", s.news2.toJson), ("news3", s.news3.toJson)]

/-- The JSON object of a digest. -/
def NewsDigest.toJson (d : NewsDigest) : Json :=
  .obj [("date", .str d.date), ("lastUpdate", .str d.lastUpdate),
        ("policy", d.policy.toJson), ("industry", d.industry.toJson),
        ("tech", d.tech.toJson)]

/-- The slot `data[section][slot]` as an own property of an own property. -/
def slotAt (data : Json) (section_ slot : String) : Option Json :=
  match ownProperty data section_ with
  | some sec => ownProperty sec slot
  | none => none

/-- No built-in prototype of the host has a member whose name starts with
`news`. -/
def NewsFree (R : Host) : Prop :=
  ∀ (v : Val) (s : String), R.member v ("news" ++ s) = .nothing

/-- A host with some members of the built-in prototypes: the length of a
string, `String.prototype.link`, `Array.prototype.push`, and `toString` on
every receiver. -/
def sampleHost : Host where
  member := fun v k =>
    match v with
    | .json (.str s) =>
      if k = "length" then .num ⟨toString s.length⟩
      else if k = "link" ∨ k = "toString" then .native else .nothing
    | .json (.arr _) => if k = "push" ∨ k = "toString" then .native else .nothing
    | _ => if k = "toString" then .native else .nothing
  monthDay := fun _ => "5月6日"
  localeString := fun _ => "2024/5/6 07:08:09"
  origin := "https://news.example"
  nativeText := "function () { [native code] }"

/-- The store states the module can leave: the empty store, and what each of
its operations that write or clear makes of such a state. -/
inductive Reachable (R : Host) : Store → Prop where
  | empty : Reachable R none
  | saved (store : Store) (now : String) (writeOk : Bool) (data : Json) :
      Reachable R store → Reachable R (saveData store now writeOk data).2
  | updatedSingle (store : Store) (tLoad tSave : String) (writeOk : Bool) (category : String)
      (newsNumber : JsNumber) (title link : String) :
      Reachable R store →
      Reachable R (updateSingleNews R store tLoad tSave writeOk category newsNumber
        title link).2
  | updatedCategory (store : Store) (tLoad tSave : String) (writeOk : Bool)
      (category : String) (newsArray : NewsArray) :
      Reachable R store →
      Reachable R (updateCategoryNewsWith R store tLoad tSave writeOk category newsArray).2
  | imported (store : Store) (now : String) (writeOk : Bool) (file : Option Text) :
      Reachable R store → Reachable R (importFromJSON store now writeOk file).2
  | cleared (store : Store) : Reachable R store → Reachable R (clearData store)

/-- The slot names of a member: none for an absent member, the field names
for an object, no names for any other value. -/
def slotNames (member : Option Json) : Option (Option (List String)) :=
  match member with
  | none => none
  | some (.obj fs) => some (some (fs.map Prod.fst))
  | some _ => some none

/-- Whether a member converts to a text or a primitive without raising, in a
template literal or in `new Date`: an absent member always does (it is read
as `undefined` or as a member the host supplies), a present one when its own
conversion succeeds. -/
def convertible (member : Option Json) : Bool :=
  match member with
  | none => true
  | some v =>
    match v.text with
    | .ok _ => true
    | .error _ => false

/-- The three sections are present and not `null`. -/
def SectionsPresent (fs : List (String × Json)) : Prop :=
  ∀ c, c ∈ ["policy", "industry", "tech"] → ∃ v, lookup fs c = some v ∧ v ≠ .null

/-- In each of the three sections each of the slots `news1`, `news2`, `news3`
is an own member that is not `null`, and each of the named fields of the slot
converts. -/
def SlotsReadable (fs : List (String × Json)) (fields : List String) : Prop :=
  ∀ c, c ∈ ["policy", "industry", "tech"] →
    ∀ k, k ∈ ["news1", "news2", "news3"] →
      ∃ v, slotAt (.obj fs) c k = some v ∧ v ≠ .null
        ∧ ∀ f, f ∈ fields → convertible (ownProperty v f) = true

/-- The key sets of the three sections: each is an object whose field names
are exactly `news1`, `news2`, `news3`. -/
def ThreeSlots (data : Json) : Prop :=
  ∃ fs, data = .obj fs ∧
    ∀ c, c ∈ ["policy", "industry", "tech"] →
      ∃ sec, lookup fs c = some (.obj sec) ∧
        List.Perm (sec.map Prod.fst) ["news1", "news2", "news3"]

/-- The field of a slot after a merge as the specification words it: the
field of the input item when that is present and truthy (non-empty),
otherwise the field the slot had. -/
def mergedField (item old : List (String × Json)) (name : String) : Option Json :=
  match lookup item name with
  | some v => if truthy (.json v) then some v else lookup old name
  | none => lookup old name

/-- Whether a digest object has a truthy member `category`: an own field with
a truthy value, or a member inherited from `Object.prototype`. -/
def hasMember (fs : List (String × Json)) (category : String) : Bool :=
  match lookup fs category with
  | some v => truthy (.json v)
  | none => decide (category ∈ objectPrototype)

/-- A numbered Markdown link as the specification words it:
`i. [title](link)`. -/
def markdownLine (i : String) (item : NewsItem) : String :=
  i ++ ". [" ++ item.title ++ "](" ++ item.link ++ ")"

/-- Two readings of a member agree in their slot names: they are equal, or
both are objects with the same field names in the same order. -/
def SameSlots (a b : Option Json) : Prop :=
  a = b ∨ ∃ x y, a = some (.obj x) ∧ b = some (.obj y) ∧ x.map Prod.fst = y.map Prod.fst

/-- Every member of two objects agrees in its slot names. -/
def SameKeys (fs fs' : List (String × Json)) : Prop :=
  ∀ k, SameSlots (lookup fs k) (lookup fs' k)

/-- The object a merge writes into a slot: the merged title and the merged
link, each left out when there is none. -/
def mergedItem (item old : List (String × Json)) : Json :=
  .obj ((match mergedField item old "title" with
         | some v => [("title", v)]
         | none => [])
        ++ (match mergedField item old "link" with
            | some v => [("link", v)]
            | none => []))

/-- The state of a slot after `updateCategoryNews`, as the specification words
it: with no input item at its position the slot is as before; with an input
item its title and its link are the merged ones. -/
def SlotAfter (sec' : List (String × Json)) (key : String)
    (item : Option (List (String × Json))) (old : List (String × Json)) : Prop :=
  match item with
  | none => lookup sec' key = some (.obj old)
  | some it =>
    ∃ n, lookup sec' key = some (.obj n)
      ∧ lookup n "title" = mergedField it old "title"
      ∧ lookup n "link" = mergedField it old "link"

/-- A member that holds an item: an object with a string title and a string
link. -/
def ItemShape (member : Option Json) (i : NewsItem) : Prop :=
  ∃ fs, member = some (.obj fs)
    ∧ lookup fs "title" = some (.str i.title) ∧ lookup fs "link" = some (.str i.link)

/-- A member that holds a section: an object with items in `news1`, `news2`,
`news3`. -/
def SectionShape (member : Option Json) (s : Section) : Prop :=
  ∃ fs, member = some (.obj fs)
    ∧ ItemShape (lookup fs "news1") s.news1
    ∧ ItemShape (lookup fs "news2") s.news2
    ∧ ItemShape (lookup fs "news3") s.news3

/-- JSON data of the digest shape, holding the digest `d`: an object with
string `date` and `lastUpdate` and the three sections, in any order of
fields. -/
def DigestShape (data : Json) (d : NewsDigest) : Prop :=
  ∃ fs, data = .obj fs
    ∧ lookup fs "date" = some (.str d.date)
    ∧ lookup fs "lastUpdate" = some (.str d.lastUpdate)
    ∧ SectionShape (lookup fs "policy") d.policy
    ∧ SectionShape (lookup fs "industry") d.industry
    ∧ SectionShape (lookup fs "tech") d.tech

/-- The default digest built at the clock reading
`2024-05-06T07:08:09.000Z`. -/
def freshDigest : NewsDigest where
  date := "2024-05-06"
  lastUpdate := "2024-05-06T07:08:09.000Z"
  policy := ⟨⟨"请更新新闻标题", "#"⟩, ⟨"请更新新闻标题", "#"⟩, ⟨"请更新新闻标题", "#"⟩⟩
  industry := ⟨⟨"请更新新闻标题", "#"⟩, ⟨"请更新新闻标题", "#"⟩, ⟨"请更新新闻标题", "#"⟩⟩
  tech := ⟨⟨"请更新新闻标题", "#"⟩, ⟨"请更新新闻标题", "#"⟩, ⟨"请更新新闻标题", "#"⟩⟩

/-- A digest of the digest shape, with `Foo` and `http://x` in
`policy.news1`. -/
def sampleDigest : NewsDigest where
  date := "2024-05-06"
  lastUpdate := "2024-05-06T07:08:09.000Z"
  policy := ⟨⟨"Foo", "http://x"⟩, ⟨"B", "http://b"⟩, ⟨"C", "http://c"⟩⟩
  industry := ⟨⟨"D", "http://d"⟩, ⟨"E", "http://e"⟩, ⟨"F", "http://f"⟩⟩
  tech := ⟨⟨"G", "http://g"⟩, ⟨"H", "http://h"⟩, ⟨"I", "http://i"⟩⟩

/-! ## Auxiliary facts -/

theorem lookup_setField_self (fs : List (String × Json)) (k : String) (v : Json) :
    lookup (setField fs k v) k = some v := by
  induction fs with
  | nil => simp [setField, lookup]
  | cons f rest ih =>
    obtain ⟨k', v'⟩ := f
    by_cases h : k' = k
    · simp [setField, lookup, h]
    · simp [setField, lookup, h, ih]

theorem lookup_setField_of_ne (fs : List (String × Json)) (k k' : String) (v : Json)
    (h : k' ≠ k) : lookup (setField fs k v) k' = lookup fs k' := by
  induction fs with
  | nil => simp [setField, lookup, Ne.symm h]
  | cons f rest ih =>
    obtain ⟨k₀, v₀⟩ := f
    by_cases h₀ : k₀ = k
    · subst h₀
      simp [setField, lookup, Ne.symm h]
    · simp [setField, lookup, h₀, ih]

theorem keys_setField_of_mem (fs : List (String × Json)) (k : String) (v : Json)
    (h : lookup fs k ≠ none) : (setField fs k v).map Prod.fst = fs.map Prod.fst := by
  induction fs with
  | nil => simp [lookup] at h
  | cons f rest ih =>
    obtain ⟨k₀, v₀⟩ := f
    by_cases h₀ : k₀ = k
    · simp [setField, h₀]
    · simp only [lookup, h₀, if_false] at h
      simp [setField, h₀, ih h]

theorem news_append_cancel (a b : String) (h : "news" ++ a = "news" ++ b) : a = b := by
  have hd := congrArg String.data h
  simp at hd
  exact String.ext hd

theorem news_not_objectPrototype (s : String) : "news" ++ s ∉ objectPrototype := by
  intro h
  have hhead : ∀ k ∈ objectPrototype, k.data.head? ≠ some 'n' := by decide
  have := hhead _ h
  simp at this

theorem toDigitsCore_length_lt (b f n : Nat) (ds : List Char) (hf : 0 < f) :
    ds.length + 1 ≤ (Nat.toDigitsCore b f n ds).length := by
  induction f generalizing n ds with
  | zero => omega
  | succ f ih =>
    simp only [Nat.toDigitsCore]
    split
    · simp
    · rcases Nat.eq_zero_or_pos f with h | h
      · subst h; simp [Nat.toDigitsCore]
      · have := ih (n / b) (Nat.digitChar (n % b) :: ds) h
        simp only [List.length_cons] at this
        omega

theorem toString_length_of_ge_ten (n : Nat) (h : 10 ≤ n) : 2 ≤ (toString n).length := by
  show 2 ≤ (Nat.repr n).length
  simp only [Nat.repr, Nat.toDigits, String.length, List.asString]
  rw [Nat.toDigitsCore]
  have h0 : n / 10 ≠ 0 := by omega
  simp only [h0, if_false]
  have := toDigitsCore_length_lt 10 n (n / 10) [Nat.digitChar (n % 10)] (by omega)
  simpa using this

theorem toString_of_ge_four (n : Nat) (h4 : 4 ≤ n) :
    toString n ≠ "1" ∧ toString n ≠ "2" ∧ toString n ≠ "3" := by
  by_cases hn : n < 10
  · interval_cases n <;> decide
  · have hl := toString_length_of_ge_ten n (by omega)
    refine ⟨?_, ?_, ?_⟩ <;> intro h <;> rw [h] at hl <;> revert hl <;> decide

theorem sampleHost_newsFree : NewsFree sampleHost := by
  intro v s
  have h1 : "news" ++ s ≠ "length" := by
    intro h; have := congrArg (fun t => t.data.head?) h; simp at this
  have h2 : "news" ++ s ≠ "link" := by
    intro h; have := congrArg (fun t => t.data.head?) h; simp at this
  have h3 : "news" ++ s ≠ "toString" := by
    intro h; have := congrArg (fun t => t.data.head?) h; simp at this
  have h4 : "news" ++ s ≠ "push" := by
    intro h; have := congrArg (fun t => t.data.head?) h; simp at this
  unfold sampleHost
  simp only
  split <;> simp [h1, h2, h3, h4]

theorem getProp_json (R : Host) (d : Json) (k : String) (hd : d ≠ .null) :
    getProp R (.json d) k
      = .ok (match ownProperty d k with
             | some x => .json x
             | none => inherited R d k) := by
  cases d with
  | null => exact absurd rfl hd
  | _ => simp only [getProp]; split <;> rfl

theorem ownProperty_of_inherited (R : Host) (d j : Json) (c k : String)
    (h : inherited R d c = .json j) : ownProperty j k = none := by
  unfold inherited at h
  cases d with
  | obj fs =>
    simp only at h
    split at h <;> cases h
  | _ =>
    simp only at h
    generalize R.member _ c = m at h
    cases m <;> simp only [Supplied.val] at h <;> cases h <;> rfl

theorem getProp_news_undefined (R : Host) (hR : NewsFree R) (v : Val) (s : String)
    (hv : truthy v = true)
    (hown : ∀ j, v = .json j → ownProperty j ("news" ++ s) = none) :
    getProp R v ("news" ++ s) = .ok .undefined := by
  cases v with
  | undefined => simp [truthy] at hv
  | native => simp [getProp, hR .native s, Supplied.val]
  | json j =>
    have hn : j ≠ .null := by
      rintro rfl
      simp [truthy] at hv
    rw [getProp_json R j _ hn, hown j rfl]
    cases j with
    | obj fs => simp [inherited, news_not_objectPrototype]
    | _ => simp [inherited, hR _ s, Supplied.val]


theorem sameSlots_refl (a : Option Json) : SameSlots a a := Or.inl rfl

theorem sameSlots_trans {a b c : Option Json} (h₁ : SameSlots a b) (h₂ : SameSlots b c) :
    SameSlots a c := by
  rcases h₁ with rfl | ⟨x, y, rfl, rfl, hxy⟩
  · exact h₂
  · rcases h₂ with h | ⟨y', z, hy, rfl, hyz⟩
    · subst h
      exact Or.inr ⟨x, y, rfl, rfl, hxy⟩
    · cases hy
      exact Or.inr ⟨x, z, rfl, rfl, hxy.trans hyz⟩

theorem sameKeys_refl (fs : List (String × Json)) : SameKeys fs fs := fun _ => sameSlots_refl _

theorem sameKeys_trans {a b c : List (String × Json)} (h₁ : SameKeys a b) (h₂ : SameKeys b c) :
    SameKeys a c := fun k => sameSlots_trans (h₁ k) (h₂ k)

theorem sameKeys_setField (fs : List (String × Json)) (c : String) (v : Json)
    (h : SameSlots (lookup fs c) (some v)) : SameKeys fs (setField fs c v) := by
  intro k
  by_cases hk : k = c
  · subst hk
    rw [lookup_setField_self]
    exact h
  · rw [lookup_setField_of_ne _ _ _ _ hk]
    exact sameSlots_refl _

theorem putSlot_sameKeys (R : Host) (fs : List (String × Json)) (c key : String) (item data' : Json)
    (hkey : key ∉ objectPrototype) (v slot : Val)
    (hv : getProp R (.json (.obj fs)) c = .ok v) (hs : getProp R v key = .ok slot)
    (ht : truthy slot = true)
    (h : putSlot R (.obj fs) c key item = .ok data') :
    ∃ fs', data' = .obj fs' ∧ SameKeys fs fs' := by
  rw [getProp_json R _ _ (by intro h; cases h)] at hv
  simp only [ownProperty] at hv
  unfold putSlot at h
  simp only [ownProperty] at h
  cases hl : lookup fs c with
  | none =>
    rw [hl] at h hv
    simp only [inherited] at h hv
    refine ⟨fs, ?_, sameKeys_refl _⟩
    by_cases hp : c ∈ objectPrototype
    · simp only [hp, if_true] at h
      cases h
      rfl
    · simp only [hp, if_false] at h
      cases h
  | some secv =>
    rw [hl] at h hv
    simp only at h hv
    cases hv
    cases secv with
    | obj sec =>
      simp only [putNamed, replaceOwn] at h
      cases h
      refine ⟨_, rfl, sameKeys_setField _ _ _ ?_⟩
      rw [hl]
      refine Or.inr ⟨sec, _, rfl, rfl, (keys_setField_of_mem _ _ _ ?_).symm⟩
      intro hnone
      rw [getProp_json R _ _ (by intro h; cases h)] at hs
      simp only [ownProperty, hnone, inherited, hkey, if_false] at hs
      cases hs
      simp [truthy] at ht
    | arr xs =>
      simp only [putNamed, replaceOwn] at h
      cases h
      refine ⟨_, rfl, sameKeys_setField _ _ _ ?_⟩
      rw [hl]
      exact sameSlots_refl _
    | _ => simp [putNamed] at h

theorem getProp_of_truthy (R : Host) (v : Val) (k : String) (hv : truthy v = true) :
    ∃ x, getProp R v k = .ok x := by
  cases v with
  | undefined => simp [truthy] at hv
  | native => exact ⟨_, rfl⟩
  | json j =>
    have hn : j ≠ .null := by
      rintro rfl
      simp [truthy] at hv
    exact ⟨_, getProp_json R j k hn⟩

theorem getProp_obj (R : Host) (fs : List (String × Json)) (c : String) :
    ∃ v, getProp R (.json (.obj fs)) c = .ok v ∧ truthy v = hasMember fs c
      ∧ (∀ j, v = .json j → lookup fs c = some j) := by
  rw [getProp_json R _ _ (by intro h; cases h)]
  refine ⟨_, rfl, ?_, ?_⟩
  · simp only [ownProperty, hasMember]
    cases lookup fs c with
    | some x => rfl
    | none =>
      simp only [inherited]
      by_cases hp : c ∈ objectPrototype <;> simp [hp, truthy]
  · intro j
    simp only [ownProperty]
    cases lookup fs c with
    | some x => intro h; cases h; rfl
    | none =>
      simp only [inherited]
      by_cases hp : c ∈ objectPrototype <;> simp [hp]

theorem updateSlot_sameKeys (R : Host) (c : String) (fs : List (String × Json)) (news : Val)
    (idx : Nat) (data' : Json) (h : updateSlot R c (.obj fs) news idx = .ok data') :
    ∃ fs', data' = .obj fs' ∧ SameKeys fs fs' := by
  unfold updateSlot at h
  simp only at h
  split at h
  · split at h
    · cases h
    · next v hv =>
      split at h
      · cases h
      · next slot hs =>
        split at h
        · next ht =>
          split at h
          · exact putSlot_sameKeys R fs c _ _ data' (news_not_objectPrototype _) v slot hv hs ht h
          · cases h
        · cases h
          exact ⟨fs, rfl, sameKeys_refl _⟩
  · cases h
    exact ⟨fs, rfl, sameKeys_refl _⟩

theorem forEachNews_sameKeys (R : Host) (c : String) (items : List Val) :
    ∀ (idx : Nat) (fs : List (String × Json)) (data' : Json),
      forEachNews R c items idx (.obj fs) = .ok data' →
      ∃ fs', data' = .obj fs' ∧ SameKeys fs fs' := by
  induction items with
  | nil =>
    intro idx fs data' h
    simp only [forEachNews] at h
    cases h
    exact ⟨fs, rfl, sameKeys_refl _⟩
  | cons news rest ih =>
    intro idx fs data' h
    simp only [forEachNews] at h
    split at h
    · cases h
    · next d₁ h₁ =>
      obtain ⟨fs₁, rfl, hk₁⟩ := updateSlot_sameKeys R c fs news idx d₁ h₁
      obtain ⟨fs₂, rfl, hk₂⟩ := ih (idx + 1) fs₁ data' h
      exact ⟨fs₂, rfl, sameKeys_trans hk₁ hk₂⟩

theorem putSlot_ok (R : Host) (hR : NewsFree R) (fs : List (String × Json)) (c s : String)
    (item : Json) (v slot : Val)
    (hv : getProp R (.json (.obj fs)) c = .ok v) (hs : getProp R v ("news" ++ s) = .ok slot)
    (hvt : truthy v = true) (ht : truthy slot = true) :
    ∃ fs', putSlot R (.obj fs) c ("news" ++ s) item = .ok (.obj fs') ∧ hasMember fs' c = true := by
  obtain ⟨v', hv', -, hown⟩ := getProp_obj R fs c
  rw [hv] at hv'
  cases hv'
  have hex : ∃ j, v = .json j ∧ ownProperty j ("news" ++ s) ≠ none := by
    by_contra hcon
    push_neg at hcon
    rw [getProp_news_undefined R hR v s hvt hcon] at hs
    cases hs
    simp [truthy] at ht
  obtain ⟨j, rfl, hj⟩ := hex
  have hl := hown j rfl
  unfold putSlot
  simp only [ownProperty, hl]
  cases j with
  | obj sec =>
    simp only [putNamed, replaceOwn]
    exact ⟨_, rfl, by simp [hasMember, lookup_setField_self, truthy]⟩
  | arr xs =>
    simp only [putNamed, replaceOwn]
    exact ⟨_, rfl, by simp [hasMember, lookup_setField_self, truthy]⟩
  | _ => simp [ownProperty] at hj

theorem updateSlot_ok (R : Host) (hR : NewsFree R) (c : String) (fs : List (String × Json))
    (news : Val) (idx : Nat) (hm : hasMember fs c = true) :
    ∃ fs', updateSlot R c (.obj fs) news idx = .ok (.obj fs') ∧ hasMember fs' c = true := by
  obtain ⟨v, hv, hvt, -⟩ := getProp_obj R fs c
  rw [hm] at hvt
  obtain ⟨slot, hs⟩ := getProp_of_truthy R v ("news" ++ toString (idx + 1)) hvt
  unfold updateSlot
  simp only [hv, hs]
  by_cases hn : truthy news = true
  · by_cases ht : truthy slot = true
    · obtain ⟨a, ha⟩ := getProp_of_truthy R news "title" hn
      obtain ⟨b, hb⟩ := getProp_of_truthy R slot "title" ht
      obtain ⟨a', ha'⟩ := getProp_of_truthy R news "link" hn
      obtain ⟨b', hb'⟩ := getProp_of_truthy R slot "link" ht
      simp only [hn, ht, if_true, ha, hb, ha', hb']
      exact putSlot_ok R hR fs c _ _ v slot hv hs hvt ht
    · simp only [hn, ht, if_true]
      exact ⟨fs, rfl, hm⟩
  · simp only [hn]
    exact ⟨fs, rfl, hm⟩

theorem forEachNews_ok (R : Host) (hR : NewsFree R) (c : String) (items : List Val) :
    ∀ (idx : Nat) (fs : List (String × Json)), hasMember fs c = true →
      ∃ fs', forEachNews R c items idx (.obj fs) = .ok (.obj fs') := by
  induction items with
  | nil => intro idx fs _; exact ⟨fs, rfl⟩
  | cons news rest ih =>
    intro idx fs hm
    obtain ⟨fs₁, h₁, hm₁⟩ := updateSlot_ok R hR c fs news idx hm
    obtain ⟨fs₂, h₂⟩ := ih (idx + 1) fs₁ hm₁
    exact ⟨fs₂, by simp only [forEachNews, h₁, h₂]⟩

theorem updateCategoryNews_result (R : Host) (hR : NewsFree R) (store : Store)
    (tLoad tSave : String) (writeOk : Bool) (category : String) (newsArray : List Val)
    (fs : List (String × Json)) (hd : loadData store tLoad = .obj fs) :
    (updateCategoryNews R store tLoad tSave writeOk category newsArray).1
      = .ok (hasMember fs category && writeOk) := by
  obtain ⟨v, hv, hvt, -⟩ := getProp_obj R fs category
  unfold updateCategoryNews
  simp only [hd, hv]
  cases hm : hasMember fs category with
  | false =>
    rw [hm] at hvt
    simp [hvt]
  | true =>
    rw [hm] at hvt
    obtain ⟨fs', hf⟩ := forEachNews_ok R hR category newsArray 0 fs hm
    simp only [hvt, if_true, hf, saveData, putNamed]
    cases writeOk <;> simp

theorem setField_same (fs : List (String × Json)) (k : String) (v : Json)
    (h : lookup fs k = some v) : setField fs k v = fs := by
  induction fs with
  | nil => simp [lookup] at h
  | cons f rest ih =>
    obtain ⟨k₀, v₀⟩ := f
    by_cases h₀ : k₀ = k
    · simp only [lookup, h₀, if_true, Option.some.injEq] at h
      simp [setField, h₀, h]
    · simp only [lookup, h₀, if_false] at h
      simp [setField, h₀, ih h]

theorem setField_setField (fs : List (String × Json)) (k : String) (v w : Json) :
    setField (setField fs k v) k w = setField fs k w := by
  induction fs with
  | nil => simp [setField]
  | cons f rest ih =>
    obtain ⟨k₀, v₀⟩ := f
    by_cases h₀ : k₀ = k
    · simp [setField, h₀]
    · simp [setField, h₀, ih]

theorem getProp_field (R : Host) (fs : List (String × Json)) (k : String)
    (hk : k ∉ objectPrototype) :
    getProp R (.json (.obj fs)) k
      = .ok (match lookup fs k with
             | some v => .json v
             | none => .undefined) := by
  rw [getProp_json R _ _ (by intro h; cases h)]
  simp only [ownProperty]
  cases lookup fs k with
  | some v => rfl
  | none => simp [inherited, hk]

theorem lookup_mergedItem_title (item old : List (String × Json)) :
    (match mergedItem item old with
     | .obj n => lookup n "title"
     | _ => none) = mergedField item old "title" := by
  unfold mergedItem
  cases mergedField item old "title" <;> cases mergedField item old "link" <;>
    simp [lookup]

theorem lookup_mergedItem_link (item old : List (String × Json)) :
    (match mergedItem item old with
     | .obj n => lookup n "link"
     | _ => none) = mergedField item old "link" := by
  unfold mergedItem
  cases mergedField item old "title" <;> cases mergedField item old "link" <;>
    simp [lookup]

theorem record_eq_mergedItem (item old : List (String × Json)) :
    record [("title", orElse (match lookup item "title" with
                              | some v => .json v
                              | none => .undefined)
                             (match lookup old "title" with
                              | some v => .json v
                              | none => .undefined)),
            ("link", orElse (match lookup item "link" with
                             | some v => .json v
                             | none => .undefined)
                            (match lookup old "link" with
                             | some v => .json v
                             | none => .undefined))]
      = mergedItem item old := by
  unfold mergedItem mergedField record orElse
  cases lookup item "title" <;> cases lookup old "title" <;>
    cases lookup item "link" <;> cases lookup old "link" <;>
    simp [truthy] <;> (try split) <;> (try split) <;> simp_all [truthy]

theorem updateSlot_merge (R : Host) (c : String) (fs sec old item : List (String × Json))
    (idx : Nat) (hsec : lookup fs c = some (.obj sec))
    (hold : lookup sec ("news" ++ toString (idx + 1)) = some (.obj old)) :
    updateSlot R c (.obj fs) (.json (.obj item)) idx
      = .ok (.obj (setField fs c
          (.obj (setField sec ("news" ++ toString (idx + 1)) (mergedItem item old))))) := by
  have hv : getProp R (.json (.obj fs)) c = .ok (.json (.obj sec)) := by
    rw [getProp_json R _ _ (by intro h; cases h)]
    simp [ownProperty, hsec]
  have hs : getProp R (.json (.obj sec)) ("news" ++ toString (idx + 1))
      = .ok (.json (.obj old)) := by
    rw [getProp_json R _ _ (by intro h; cases h)]
    simp [ownProperty, hold]
  have ht : "title" ∉ objectPrototype := by decide
  have hl : "link" ∉ objectPrototype := by decide
  have h1 : truthy (.json (.obj item)) = true := rfl
  have h2 : truthy (.json (.obj old)) = true := rfl
  unfold updateSlot
  simp only [hv, hs, h1, h2, if_true, getProp_field R item _ ht, getProp_field R old _ ht,
    getProp_field R item _ hl, getProp_field R old _ hl, record_eq_mergedItem]
  simp [putSlot, ownProperty, hsec, putNamed, replaceOwn]

theorem updateSlot_in_section (R : Host) (c : String) (fs sec item : List (String × Json))
    (idx : Nat) (hsec : lookup fs c = some (.obj sec)) :
    ∃ sec', updateSlot R c (.obj fs) (.json (.obj item)) idx
        = .ok (.obj (setField fs c (.obj sec')))
      ∧ ∀ k, k ≠ "news" ++ toString (idx + 1) → lookup sec' k = lookup sec k := by
  have hv : getProp R (.json (.obj fs)) c = .ok (.json (.obj sec)) := by
    rw [getProp_json R _ _ (by intro h; cases h)]
    simp [ownProperty, hsec]
  obtain ⟨slot, hs⟩ := getProp_of_truthy R (.json (.obj sec)) ("news" ++ toString (idx + 1)) rfl
  have h1 : truthy (.json (.obj item)) = true := rfl
  unfold updateSlot
  simp only [hv, hs, h1, if_true]
  by_cases ht : truthy slot = true
  · obtain ⟨a, ha⟩ := getProp_of_truthy R (.json (.obj item)) "title" h1
    obtain ⟨b, hb⟩ := getProp_of_truthy R slot "title" ht
    obtain ⟨a', ha'⟩ := getProp_of_truthy R (.json (.obj item)) "link" h1
    obtain ⟨b', hb'⟩ := getProp_of_truthy R slot "link" ht
    simp only [ht, if_true, ha, hb, ha', hb']
    refine ⟨setField sec ("news" ++ toString (idx + 1))
      (record [("title", orElse a b), ("link", orElse a' b')]), ?_, ?_⟩
    · simp [putSlot, ownProperty, hsec, putNamed, replaceOwn]
    · intro k hk
      exact lookup_setField_of_ne _ _ _ _ hk
  · simp only [ht]
    exact ⟨sec, by simp [setField_same fs c _ hsec], fun _ _ => rfl⟩

theorem forEachNews_beyond (R : Host) (c : String) (rest : List (List (String × Json))) :
    ∀ (idx : Nat) (fs sec : List (String × Json)), 3 ≤ idx → lookup fs c = some (.obj sec) →
      ∃ sec', forEachNews R c (rest.map fun i => Val.json (.obj i)) idx (.obj fs)
          = .ok (.obj (setField fs c (.obj sec')))
        ∧ ∀ k, k ∈ ["news1", "news2", "news3"] → lookup sec' k = lookup sec k := by
  induction rest with
  | nil =>
    intro idx fs sec _ hsec
    exact ⟨sec, by simp [forEachNews, setField_same fs c _ hsec], fun _ _ => rfl⟩
  | cons item rest ih =>
    intro idx fs sec hidx hsec
    obtain ⟨sec₁, h₁, hk₁⟩ := updateSlot_in_section R c fs sec item idx hsec
    obtain ⟨sec₂, h₂, hk₂⟩ := ih (idx + 1) (setField fs c (.obj sec₁)) sec₁ (by omega)
      (lookup_setField_self _ _ _)
    refine ⟨sec₂, ?_, ?_⟩
    · simp only [List.map_cons, forEachNews, h₁, h₂, setField_setField]
    · intro k hk
      rw [hk₂ k hk]
      apply hk₁
      obtain ⟨n1, n2, n3⟩ := toString_of_ge_four (idx + 1) (by omega)
      simp only [List.mem_cons, List.mem_singleton, List.not_mem_nil, or_false] at hk
      rcases hk with rfl | rfl | rfl
      · exact fun h => n1 (news_append_cancel _ "1" h.symm)
      · exact fun h => n2 (news_append_cancel _ "2" h.symm)
      · exact fun h => n3 (news_append_cancel _ "3" h.symm)

theorem forEachNews_cons_merge (R : Host) (c : String) (fs sec old item : List (String × Json))
    (rest : List Val) (idx : Nat) (key : String) (hkey : "news" ++ toString (idx + 1) = key)
    (hsec : lookup fs c = some (.obj sec)) (hold : lookup sec key = some (.obj old)) :
    forEachNews R c (.json (.obj item) :: rest) idx (.obj fs)
      = forEachNews R c rest (idx + 1)
          (.obj (setField fs c (.obj (setField sec key (mergedItem item old))))) := by
  subst hkey
  simp only [forEachNews, updateSlot_merge R c fs sec old item idx hsec hold]

theorem forEachNews_merge (R : Host) (c : String) (items : List (List (String × Json)))
    (fs sec o1 o2 o3 : List (String × Json))
    (hsec : lookup fs c = some (.obj sec))
    (h1 : lookup sec "news1" = some (.obj o1))
    (h2 : lookup sec "news2" = some (.obj o2))
    (h3 : lookup sec "news3" = some (.obj o3)) :
    ∃ sec',
      forEachNews R c (items.map fun i => Val.json (.obj i)) 0 (.obj fs)
        = .ok (.obj (setField fs c (.obj sec')))
      ∧ SlotAfter sec' "news1" items[0]? o1
      ∧ SlotAfter sec' "news2" items[1]? o2
      ∧ SlotAfter sec' "news3" items[2]? o3 := by
  have k1 : "news" ++ toString (0 + 1) = "news1" := by decide
  have k2 : "news" ++ toString (0 + 1 + 1) = "news2" := by decide
  have k3 : "news" ++ toString (0 + 1 + 1 + 1) = "news3" := by decide
  have e12 : "news1" ≠ "news2" := by decide
  have e13 : "news1" ≠ "news3" := by decide
  have e23 : "news2" ≠ "news3" := by decide
  match items with
  | [] =>
    refine ⟨sec, ?_, h1, h2, h3⟩
    simp [forEachNews, setField_same fs c _ hsec]
  | [a] =>
    refine ⟨setField sec "news1" (mergedItem a o1), ?_, ?_, ?_, ?_⟩
    · simp only [List.map_cons, List.map_nil]
      rw [forEachNews_cons_merge R c fs sec o1 a _ 0 "news1" k1 hsec h1]
      rfl
    · exact ⟨_, lookup_setField_self _ _ _, lookup_mergedItem_title a o1,
        lookup_mergedItem_link a o1⟩
    · show lookup _ _ = _
      rw [lookup_setField_of_ne _ _ _ _ e12.symm]; exact h2
    · show lookup _ _ = _
      rw [lookup_setField_of_ne _ _ _ _ e13.symm]; exact h3
  | [a, b] =>
    have h2' : lookup (setField sec "news1" (mergedItem a o1)) "news2" = some (.obj o2) := by
      rw [lookup_setField_of_ne _ _ _ _ e12.symm]; exact h2
    refine ⟨setField (setField sec "news1" (mergedItem a o1)) "news2" (mergedItem b o2),
      ?_, ?_, ?_, ?_⟩
    · simp only [List.map_cons, List.map_nil]
      rw [forEachNews_cons_merge R c fs sec o1 a _ 0 "news1" k1 hsec h1,
        forEachNews_cons_merge R c _ _ o2 b _ (0 + 1) "news2" k2
          (lookup_setField_self _ _ _) h2', setField_setField]
      rfl
    · refine ⟨_, ?_, lookup_mergedItem_title a o1, lookup_mergedItem_link a o1⟩
      rw [lookup_setField_of_ne _ _ _ _ e12, lookup_setField_self]
      rfl
    · exact ⟨_, lookup_setField_self _ _ _, lookup_mergedItem_title b o2,
        lookup_mergedItem_link b o2⟩
    · show lookup _ _ = _
      rw [lookup_setField_of_ne _ _ _ _ e23.symm, lookup_setField_of_ne _ _ _ _ e13.symm]
      exact h3
  | a :: b :: d :: rest =>
    have h2' : lookup (setField sec "news1" (mergedItem a o1)) "news2" = some (.obj o2) := by
      rw [lookup_setField_of_ne _ _ _ _ e12.symm]; exact h2
    have h3' : lookup (setField (setField sec "news1" (mergedItem a o1)) "news2"
        (mergedItem b o2)) "news3" = some (.obj o3) := by
      rw [lookup_setField_of_ne _ _ _ _ e23.symm, lookup_setField_of_ne _ _ _ _ e13.symm]
      exact h3
    obtain ⟨sec', hrest, hkeep⟩ := forEachNews_beyond R c rest (0 + 1 + 1 + 1)
      (setField fs c (.obj (setField (setField (setField sec "news1" (mergedItem a o1))
        "news2" (mergedItem b o2)) "news3" (mergedItem d o3))))
      (setField (setField (setField sec "news1" (mergedItem a o1)) "news2"
        (mergedItem b o2)) "news3" (mergedItem d o3)) (by omega) (lookup_setField_self _ _ _)
    rw [setField_setField] at hrest
    have e0 : (a :: b :: d :: rest)[0]? = some a := by simp
    have e1 : (a :: b :: d :: rest)[1]? = some b := by simp
    have e2 : (a :: b :: d :: rest)[2]? = some d := by simp
    rw [e0, e1, e2]
    refine ⟨sec', ?_, ?_, ?_, ?_⟩
    · simp only [List.map_cons]
      rw [forEachNews_cons_merge R c fs sec o1 a _ 0 "news1" k1 hsec h1,
        forEachNews_cons_merge R c _ _ o2 b _ (0 + 1) "news2" k2
          (lookup_setField_self _ _ _) h2', setField_setField,
        forEachNews_cons_merge R c _ _ o3 d _ (0 + 1 + 1) "news3" k3
          (lookup_setField_self _ _ _) h3', setField_setField]
      exact hrest
    · refine ⟨_, ?_, lookup_mergedItem_title a o1, lookup_mergedItem_link a o1⟩
      rw [hkeep "news1" (by simp), lookup_setField_of_ne _ _ _ _ e13,
        lookup_setField_of_ne _ _ _ _ e12, lookup_setField_self]
      rfl
    · refine ⟨_, ?_, lookup_mergedItem_title b o2, lookup_mergedItem_link b o2⟩
      rw [hkeep "news2" (by simp), lookup_setField_of_ne _ _ _ _ e23, lookup_setField_self]
      rfl
    · refine ⟨_, ?_, lookup_mergedItem_title d o3, lookup_mergedItem_link d o3⟩
      rw [hkeep "news3" (by simp), lookup_setField_self]
      rfl

theorem threeSlots_getDefaultData (t : String) : ThreeSlots (getDefaultData t) := by
  refine ⟨_, rfl, ?_⟩
  intro c hc
  simp only [List.mem_cons, List.mem_singleton, List.not_mem_nil, or_false] at hc
  rcases hc with rfl | rfl | rfl <;>
    exact ⟨[("news1", placeholder), ("news2", placeholder), ("news3", placeholder)], rfl,
      List.Perm.refl _⟩

theorem updateSingleNews_store (R : Host) (store : Store) (tLoad tSave : String)
    (writeOk : Bool) (category : String) (newsNumber : JsNumber) (title link : String)
    (fs : List (String × Json)) (hd : loadData store tLoad = .obj fs) :
    (updateSingleNews R store tLoad tSave writeOk category newsNumber title link).2 = store
    ∨ ∃ fs', SameKeys fs fs'
        ∧ (updateSingleNews R store tLoad tSave writeOk category newsNumber title link).2
            = some (.json (.obj (setField fs' "lastUpdate" (.str tSave)))) := by
  unfold updateSingleNews
  simp only [hd]
  split
  · exact Or.inl rfl
  · next v hv =>
    split
    · split
      · exact Or.inl rfl
      · next slot hs =>
        split
        · next ht =>
          split
          · exact Or.inl rfl
          · next data' hp =>
            obtain ⟨fs', rfl, hk⟩ := putSlot_sameKeys R fs category _ _ data'
              (news_not_objectPrototype _) v slot hv hs ht hp
            cases writeOk
            · exact Or.inl rfl
            · exact Or.inr ⟨fs', hk, rfl⟩
        · exact Or.inl rfl
    · exact Or.inl rfl

theorem updateCategoryNews_store (R : Host) (store : Store) (tLoad tSave : String)
    (writeOk : Bool) (category : String) (newsArray : List Val)
    (fs : List (String × Json)) (hd : loadData store tLoad = .obj fs) :
    (updateCategoryNews R store tLoad tSave writeOk category newsArray).2 = store
    ∨ ∃ fs', SameKeys fs fs'
        ∧ (updateCategoryNews R store tLoad tSave writeOk category newsArray).2
            = some (.json (.obj (setField fs' "lastUpdate" (.str tSave)))) := by
  unfold updateCategoryNews
  simp only [hd]
  split
  · exact Or.inl rfl
  · split
    · split
      · exact Or.inl rfl
      · next data' hp =>
        obtain ⟨fs', rfl, hk⟩ := forEachNews_sameKeys R category newsArray 0 fs data' hp
        cases writeOk
        · exact Or.inl rfl
        · exact Or.inr ⟨fs', hk, rfl⟩
    · exact Or.inl rfl

theorem digestShape_toJson (d : NewsDigest) : DigestShape d.toJson d :=
  ⟨_, rfl, rfl, rfl,
    ⟨_, rfl, ⟨_, rfl, rfl, rfl⟩, ⟨_, rfl, rfl, rfl⟩, ⟨_, rfl, rfl, rfl⟩⟩,
    ⟨_, rfl, ⟨_, rfl, rfl, rfl⟩, ⟨_, rfl, rfl, rfl⟩, ⟨_, rfl, rfl, rfl⟩⟩,
    ⟨_, rfl, ⟨_, rfl, rfl, rfl⟩, ⟨_, rfl, rfl, rfl⟩, ⟨_, rfl, rfl, rfl⟩⟩⟩

theorem getProp_own (R : Host) (fs : List (String × Json)) (k : String) (v : Json)
    (h : lookup fs k = some v) : getProp R (.json (.obj fs)) k = .ok (.json v) := by
  rw [getProp_json R _ _ (by intro h; cases h)]
  simp [ownProperty, h]

theorem slotOf_shape (R : Host) (fs : List (String × Json)) (c k : String) (s : Section)
    (i : NewsItem) (hs : SectionShape (lookup fs c) s)
    (hk : ∀ sfs, lookup fs c = some (.obj sfs) → ItemShape (lookup sfs k) i) :
    ∃ ifs, slotOf R (.obj fs) c k = .ok (.json (.obj ifs))
      ∧ lookup ifs "title" = some (.str i.title) ∧ lookup ifs "link" = some (.str i.link) := by
  obtain ⟨sfs, hsec, -, -, -⟩ := hs
  obtain ⟨ifs, hi, ht, hl⟩ := hk sfs hsec
  refine ⟨ifs, ?_, ht, hl⟩
  simp only [slotOf, getProp_own R fs c _ hsec, getProp_own R sfs k _ hi]

theorem fieldText_shape (R : Host) (fs ifs : List (String × Json)) (c k f v : String)
    (hs : slotOf R (.obj fs) c k = .ok (.json (.obj ifs)))
    (hf : lookup ifs f = some (.str v)) :
    fieldText R (.obj fs) c k f = .ok v := by
  simp only [fieldText, hs, getProp_own R ifs f _ hf, toStr, Json.text]

theorem linkLine_shape (R : Host) (fs ifs : List (String × Json)) (c n : String) (i : NewsItem)
    (hs : slotOf R (.obj fs) c ("news" ++ n) = .ok (.json (.obj ifs)))
    (ht : lookup ifs "title" = some (.str i.title))
    (hl : lookup ifs "link" = some (.str i.link)) :
    linkLine R (.obj fs) c n = .ok (markdownLine n i ++ "\n") := by
  simp only [linkLine, fieldText_shape R fs ifs c _ _ _ hs ht,
    fieldText_shape R fs ifs c _ _ _ hs hl, markdownLine, String.append_assoc]
  rfl

theorem linkLines_shape (R : Host) (fs : List (String × Json)) (c : String) (s : Section)
    (hs : SectionShape (lookup fs c) s) :
    linkLines R (.obj fs) c
      = .ok (markdownLine "1" s.news1 ++ "\n" ++ (markdownLine "2" s.news2 ++ "\n")
          ++ (markdownLine "3" s.news3 ++ "\n")) := by
  obtain ⟨i1, h1, t1, l1⟩ := slotOf_shape R fs c "news1" s s.news1 hs (by
    intro sfs h; obtain ⟨sfs', h', a, -, -⟩ := hs; rw [h] at h'; cases h'; exact a)
  obtain ⟨i2, h2, t2, l2⟩ := slotOf_shape R fs c "news2" s s.news2 hs (by
    intro sfs h; obtain ⟨sfs', h', -, a, -⟩ := hs; rw [h] at h'; cases h'; exact a)
  obtain ⟨i3, h3, t3, l3⟩ := slotOf_shape R fs c "news3" s s.news3 hs (by
    intro sfs h; obtain ⟨sfs', h', -, -, a⟩ := hs; rw [h] at h'; cases h'; exact a)
  simp only [linkLines, linkLine_shape R fs i1 c "1" s.news1 h1 t1 l1,
    linkLine_shape R fs i2 c "2" s.news2 h2 t2 l2,
    linkLine_shape R fs i3 c "3" s.news3 h3 t3 l3]

theorem dateStr_shape (R : Host) (fs : List (String × Json)) (d : String)
    (h : lookup fs "date" = some (.str d)) :
    dateStr R (.obj fs) = .ok (R.monthDay (.json (.str d))) := by
  simp only [dateStr, getProp_own R fs "date" _ h, toPrimitive]

theorem putNamed_ne_null (data : Json) (k : String) (v stamped : Json)
    (h : putNamed data k v = .ok stamped) : stamped ≠ .null := by
  cases data <;> simp [putNamed] at h <;> subst h <;> intro h' <;> cases h'

theorem saveData_written (store : Store) (now : String) (writeOk : Bool) (data : Json) :
    (saveData store now writeOk data).2 = store
    ∨ ∃ j, (saveData store now writeOk data).2 = some (.json j) ∧ j ≠ .null := by
  unfold saveData
  split
  · exact Or.inl rfl
  · next stamped h =>
    cases writeOk
    · exact Or.inl rfl
    · exact Or.inr ⟨stamped, rfl, putNamed_ne_null _ _ _ _ h⟩

theorem updateSingleNews_written (R : Host) (store : Store) (tLoad tSave : String)
    (writeOk : Bool) (category : String) (newsNumber : JsNumber) (title link : String) :
    (updateSingleNews R store tLoad tSave writeOk category newsNumber title link).2 = store
    ∨ ∃ j, (updateSingleNews R store tLoad tSave writeOk category newsNumber title link).2
        = some (.json j) ∧ j ≠ .null := by
  unfold updateSingleNews
  simp only
  split
  · exact Or.inl rfl
  · split
    · split
      · exact Or.inl rfl
      · split
        · split
          · exact Or.inl rfl
          · exact saveData_written _ _ _ _
        · exact Or.inl rfl
    · exact Or.inl rfl

theorem updateCategoryNews_written (R : Host) (store : Store) (tLoad tSave : String)
    (writeOk : Bool) (category : String) (newsArray : List Val) :
    (updateCategoryNews R store tLoad tSave writeOk category newsArray).2 = store
    ∨ ∃ j, (updateCategoryNews R store tLoad tSave writeOk category newsArray).2
        = some (.json j) ∧ j ≠ .null := by
  unfold updateCategoryNews
  simp only
  split
  · exact Or.inl rfl
  · split
    · split
      · exact Or.inl rfl
      · exact saveData_written _ _ _ _
    · exact Or.inl rfl

theorem updateCategoryNewsWith_written (R : Host) (store : Store) (tLoad tSave : String)
    (writeOk : Bool) (category : String) (newsArray : NewsArray) :
    (updateCategoryNewsWith R store tLoad tSave writeOk category newsArray).2 = store
    ∨ ∃ j, (updateCategoryNewsWith R store tLoad tSave writeOk category newsArray).2
        = some (.json j) ∧ j ≠ .null := by
  cases newsArray with
  | array items => exact updateCategoryNews_written R store tLoad tSave writeOk category items
  | notArray =>
    unfold updateCategoryNewsWith
    simp only
    split
    · exact Or.inl rfl
    · split <;> exact Or.inl rfl

theorem importFromJSON_written (store : Store) (now : String) (writeOk : Bool)
    (file : Option Text) :
    (importFromJSON store now writeOk file).2 = store
    ∨ ∃ j, (importFromJSON store now writeOk file).2 = some (.json j) ∧ j ≠ .null := by
  unfold importFromJSON
  split
  · exact Or.inl rfl
  · exact Or.inl rfl
  · exact Or.inl rfl
  · simp only
    split <;> exact saveData_written _ _ _ _

theorem loadData_ne_null_of_written (store store' : Store)
    (h : ∀ t, loadData store t ≠ .null)
    (hw : store' = store ∨ ∃ j, store' = some (.json j) ∧ j ≠ .null) :
    ∀ t, loadData store' t ≠ .null := by
  rcases hw with rfl | ⟨j, rfl, hj⟩
  · exact h
  · intro t; exact hj

theorem reachable_loadData_ne_null (R : Host) (store : Store) (h : Reachable R store) :
    ∀ t, loadData store t ≠ .null := by
  induction h with
  | empty => intro t h; cases h
  | saved store now writeOk data _ ih =>
    exact loadData_ne_null_of_written _ _ ih (saveData_written _ _ _ _)
  | updatedSingle store tLoad tSave writeOk category newsNumber title link _ ih =>
    exact loadData_ne_null_of_written _ _ ih (updateSingleNews_written _ _ _ _ _ _ _ _ _)
  | updatedCategory store tLoad tSave writeOk category newsArray _ ih =>
    exact loadData_ne_null_of_written _ _ ih (updateCategoryNewsWith_written _ _ _ _ _ _ _)
  | imported store now writeOk file _ ih =>
    exact loadData_ne_null_of_written _ _ ih (importFromJSON_written _ _ _ _)
  | cleared store _ _ => intro t h; cases h

theorem updateSingleNews_absent_of_ne_null (R : Host) (hR : NewsFree R) (store : Store)
    (tLoad tSave : String) (writeOk : Bool) (category : String) (newsNumber : JsNumber)
    (title link : String)
    (hnull : loadData store tLoad ≠ .null)
    (habs : ownProperty (loadData store tLoad) category = none
      ∨ ∃ sec, ownProperty (loadData store tLoad) category = some sec
          ∧ ownProperty sec ("news" ++ newsNumber.text) = none) :
    updateSingleNews R store tLoad tSave writeOk category newsNumber title link
      = (.ok false, store) := by
  unfold updateSingleNews
  simp only [getProp_json R _ category hnull]
  split
  · next hv =>
      rw [getProp_news_undefined R hR _ _ hv]
      · simp [truthy]
      · intro j hj
        rcases habs with h | ⟨sec, h, hs⟩
        · rw [h] at hj
          exact ownProperty_of_inherited R _ j category _ hj
        · rw [h] at hj
          cases hj
          exact hs
  · rfl

theorem takeWhile_append_stop (xs ys : List Char) (c : Char) (h : c ∉ xs) :
    (xs ++ c :: ys).takeWhile (fun x => x != c) = xs := by
  induction xs with
  | nil => simp [List.takeWhile]
  | cons x rest ih =>
    simp only [List.mem_cons, not_or] at h
    have hx : (x != c) = true := by simpa using fun e => h.1 e.symm
    simp [List.takeWhile, hx, ih h.2]

theorem isoDate_append (date rest : String) (h : 'T' ∉ date.data) :
    isoDate (date ++ "T" ++ rest) = date := by
  unfold isoDate
  have hdata : (date ++ "T" ++ rest).data = date.data ++ 'T' :: rest.data := by
    simp [String.data_append]
  rw [hdata, takeWhile_append_stop _ _ _ h]

theorem slotNames_of_sameSlots (a b : Option Json) (h : SameSlots a b) :
    slotNames b = slotNames a := by
  rcases h with rfl | ⟨x, y, rfl, rfl, hxy⟩
  · rfl
  · simp [slotNames, hxy]

theorem slotNames_loadData (store : Store) (t t' : String) (fs : List (String × Json))
    (hd : loadData store t = .obj fs) :
    ∃ fs', loadData store t' = .obj fs'
      ∧ ∀ k, slotNames (lookup fs' k) = slotNames (lookup fs k) := by
  have hdef : ∀ fs₀, getDefaultData t = .obj fs₀ →
      ∃ fs', getDefaultData t' = .obj fs'
        ∧ ∀ k, slotNames (lookup fs' k) = slotNames (lookup fs₀ k) := by
    intro fs₀ h
    simp only [getDefaultData, Json.obj.injEq] at h
    subst h
    refine ⟨_, rfl, ?_⟩
    intro k
    simp only [lookup]
    split_ifs <;> rfl
  cases store with
  | none => exact hdef fs hd
  | some x =>
    cases x with
    | empty => exact hdef fs hd
    | malformed => exact hdef fs hd
    | json j => exact ⟨fs, hd, fun _ => rfl⟩

theorem threeSlots_of_slotNames (fs fs' : List (String × Json))
    (h : ThreeSlots (.obj fs))
    (hk : ∀ k, k ≠ "lastUpdate" → slotNames (lookup fs' k) = slotNames (lookup fs k)) :
    ThreeSlots (.obj fs') := by
  obtain ⟨fs₀, h₀, hsec⟩ := h
  cases h₀
  refine ⟨_, rfl, ?_⟩
  intro c hc
  obtain ⟨sec, hl, hp⟩ := hsec c hc
  have hne : c ≠ "lastUpdate" := by
    simp only [List.mem_cons, List.mem_singleton, List.not_mem_nil, or_false] at hc
    rcases hc with rfl | rfl | rfl <;> decide
  have hn := hk c hne
  rw [hl] at hn
  cases hl' : lookup fs' c with
  | none => rw [hl'] at hn; simp [slotNames] at hn
  | some v =>
    rw [hl'] at hn
    cases v with
    | obj y =>
      simp only [slotNames, Option.some.injEq] at hn
      exact ⟨y, rfl, hn ▸ hp⟩
    | _ => simp [slotNames] at hn

theorem elemAt_setElem (xs : List Json) (k : String) (j j' : Json) :
    ∀ i, elemAt xs i k = some j → elemAt (setElem xs i k j') i k = some j' := by
  induction xs with
  | nil => intro i h; simp [elemAt] at h
  | cons x rest ih =>
    intro i h
    by_cases hi : toString i = k
    · simp [setElem, elemAt, hi]
    · simp only [elemAt, hi, if_false] at h
      simp only [setElem, hi, if_false, elemAt]
      exact ih (i + 1) h

theorem ownProperty_replaceOwn (data : Json) (c : String) (j j' : Json)
    (h : ownProperty data c = some j) (hj : ∀ n, j ≠ .num n) :
    ownProperty (replaceOwn data c j') c = some j' ∧ replaceOwn data c j' ≠ .null := by
  cases data with
  | obj fs =>
    exact ⟨by simp [replaceOwn, ownProperty, lookup_setField_self], by intro h; cases h⟩
  | arr xs =>
    simp only [ownProperty] at h
    by_cases hc : c = "length"
    · simp only [hc, if_true, Option.some.injEq] at h
      exact absurd h.symm (hj _)
    · simp only [hc, if_false] at h
      exact ⟨by simp [replaceOwn, ownProperty, hc, elemAt_setElem xs c j j' 0 h],
        by intro h; cases h⟩
  | _ => simp [ownProperty] at h

theorem putSlot_live (R : Host) (hR : NewsFree R) (data : Json) (c s : String)
    (item : Json) (v slot : Val) (hd : data ≠ .null)
    (hv : getProp R (.json data) c = .ok v) (hs : getProp R v ("news" ++ s) = .ok slot)
    (hvt : truthy v = true) (ht : truthy slot = true) :
    ∃ data', putSlot R data c ("news" ++ s) item = .ok data' ∧ data' ≠ .null
      ∧ ∃ v', getProp R (.json data') c = .ok v' ∧ truthy v' = true := by
  have hex : ∃ j, v = .json j ∧ ownProperty j ("news" ++ s) ≠ none := by
    by_contra hcon
    push_neg at hcon
    rw [getProp_news_undefined R hR v s hvt hcon] at hs
    cases hs
    simp [truthy] at ht
  obtain ⟨j, rfl, hj⟩ := hex
  rw [getProp_json R data c hd] at hv
  cases hown : ownProperty data c with
  | none =>
    rw [hown] at hv
    simp only [Except.ok.injEq] at hv
    exact absurd (ownProperty_of_inherited R data j c _ hv) hj
  | some x =>
    rw [hown] at hv
    simp only [Except.ok.injEq, Val.json.injEq] at hv
    subst hv
    unfold putSlot
    simp only [hown]
    cases x with
    | obj sec =>
      simp only [putNamed]
      obtain ⟨h₁, h₂⟩ := ownProperty_replaceOwn data c (.obj sec)
        (.obj (setField sec ("news" ++ s) item)) hown (by intro n h; cases h)
      exact ⟨_, rfl, h₂, .json (.obj (setField sec ("news" ++ s) item)),
        by rw [getProp_json R _ c h₂, h₁], rfl⟩
    | arr xs =>
      simp only [putNamed]
      obtain ⟨h₁, h₂⟩ := ownProperty_replaceOwn data c (.arr xs) (.arr xs) hown
        (by intro n h; cases h)
      exact ⟨_, rfl, h₂, .json (.arr xs), by rw [getProp_json R _ c h₂, h₁], rfl⟩
    | _ => simp [ownProperty] at hj

theorem updateSlot_live (R : Host) (hR : NewsFree R) (c : String) (data : Json)
    (news : Val) (idx : Nat) (hd : data ≠ .null)
    (hlive : ∃ v, getProp R (.json data) c = .ok v ∧ truthy v = true) :
    ∃ data', updateSlot R c data news idx = .ok data' ∧ data' ≠ .null
      ∧ ∃ v', getProp R (.json data') c = .ok v' ∧ truthy v' = true := by
  obtain ⟨v, hv, hvt⟩ := hlive
  obtain ⟨slot, hs⟩ := getProp_of_truthy R v ("news" ++ toString (idx + 1)) hvt
  unfold updateSlot
  simp only [hv, hs]
  by_cases hn : truthy news = true
  · by_cases ht : truthy slot = true
    · obtain ⟨a, ha⟩ := getProp_of_truthy R news "title" hn
      obtain ⟨b, hb⟩ := getProp_of_truthy R slot "title" ht
      obtain ⟨a', ha'⟩ := getProp_of_truthy R news "link" hn
      obtain ⟨b', hb'⟩ := getProp_of_truthy R slot "link" ht
      simp only [hn, ht, if_true, ha, hb, ha', hb']
      exact putSlot_live R hR data c _ _ v slot hd hv hs hvt ht
    · simp only [hn, ht, if_true]
      exact ⟨data, rfl, hd, v, hv, hvt⟩
  · simp only [hn]
    exact ⟨data, rfl, hd, v, hv, hvt⟩

theorem forEachNews_live (R : Host) (hR : NewsFree R) (c : String) (items : List Val) :
    ∀ (idx : Nat) (data : Json), data ≠ .null →
      (∃ v, getProp R (.json data) c = .ok v ∧ truthy v = true) →
      ∃ data', forEachNews R c items idx data = .ok data' := by
  induction items with
  | nil => intro idx data _ _; exact ⟨data, rfl⟩
  | cons news rest ih =>
    intro idx data hd hlive
    obtain ⟨d₁, h₁, hd₁, hl₁⟩ := updateSlot_live R hR c data news idx hd hlive
    obtain ⟨d₂, h₂⟩ := ih (idx + 1) d₁ hd₁ hl₁
    exact ⟨d₂, by simp only [forEachNews, h₁, h₂]⟩

theorem updateCategoryNews_returns_of_ne_null (R : Host) (hR : NewsFree R) (store : Store)
    (tLoad tSave : String) (writeOk : Bool) (category : String) (newsArray : List Val)
    (hd : loadData store tLoad ≠ .null) :
    ∃ b, (updateCategoryNews R store tLoad tSave writeOk category newsArray).1 = .ok b := by
  unfold updateCategoryNews
  simp only [getProp_json R _ category hd]
  split
  · next hvt =>
    obtain ⟨d', hf⟩ := forEachNews_live R hR category newsArray 0 _ hd
      ⟨_, getProp_json R _ category hd, hvt⟩
    simp only [hf]
    exact ⟨_, rfl⟩
  · exact ⟨false, rfl⟩

theorem updateSingleNews_returns_of_ne_null (R : Host) (hR : NewsFree R) (store : Store)
    (tLoad tSave : String) (writeOk : Bool) (category : String) (newsNumber : JsNumber)
    (title link : String) (hd : loadData store tLoad ≠ .null) :
    ∃ b, (updateSingleNews R store tLoad tSave writeOk category newsNumber title link).1
      = .ok b := by
  unfold updateSingleNews
  simp only [getProp_json R _ category hd]
  split
  · next hvt =>
    obtain ⟨slot, hs⟩ := getProp_of_truthy R _ ("news" ++ newsNumber.text) hvt
    simp only [hs]
    split
    · next ht =>
      obtain ⟨d', hp, -, -⟩ := putSlot_live R hR _ category newsNumber.text
        (.obj [("title", .str title), ("link", .str link)]) _ slot hd
        (getProp_json R _ category hd) hs hvt ht
      simp only [hp]
      exact ⟨_, rfl⟩
    · exact ⟨false, rfl⟩
  · exact ⟨false, rfl⟩

theorem isToday_returns_of_ne_null (R : Host) (store : Store) (tLoad now : String)
    (hd : loadData store tLoad ≠ .null) : ∃ b, isToday R store tLoad now = .ok b := by
  unfold isToday
  simp only [getProp_json R _ "date" hd]
  split
  · next h => cases h
  · exact ⟨_, rfl⟩
  · exact ⟨false, rfl⟩

theorem updateCategoryNewsWith_notArray (R : Host) (store : Store) (tLoad tSave : String)
    (writeOk : Bool) (category : String) (fs : List (String × Json))
    (hd : loadData store tLoad = .obj fs) :
    updateCategoryNewsWith R store tLoad tSave writeOk category .notArray
      = (if hasMember fs category then .error .typeError else .ok false, store) := by
  obtain ⟨v, hv, hvt, -⟩ := getProp_obj R fs category
  unfold updateCategoryNewsWith
  simp only [hd, hv, hvt]
  split <;> rfl

theorem toStr_json_iff (R : Host) (v : Json) :
    (∃ t, toStr R (.json v) = .ok t) ↔ convertible (some v) = true := by
  simp only [toStr, convertible]
  cases v.text <;> simp

theorem toPrimitive_json_iff (R : Host) (v : Json) :
    (∃ p, toPrimitive R (.json v) = .ok p) ↔ convertible (some v) = true := by
  cases v with
  | arr xs =>
    simp only [toPrimitive, convertible]
    cases Json.text (.arr xs) <;> simp [Except.map]
  | obj fs =>
    simp only [toPrimitive, convertible]
    cases Json.text (.obj fs) <;> simp [Except.map]
  | _ => simp [toPrimitive, convertible, Json.text]

theorem toStr_inherited (R : Host) (j : Json) (k : String) :
    ∃ t, toStr R (inherited R j k) = .ok t := by
  cases j with
  | obj fs =>
    simp only [inherited]
    split <;> exact ⟨_, rfl⟩
  | _ =>
    simp only [inherited]
    generalize R.member _ k = m
    cases m <;> exact ⟨_, rfl⟩

theorem toPrimitive_inherited (R : Host) (j : Json) (k : String) :
    ∃ p, toPrimitive R (inherited R j k) = .ok p := by
  cases j with
  | obj fs =>
    simp only [inherited]
    split <;> exact ⟨_, rfl⟩
  | _ =>
    simp only [inherited]
    generalize R.member _ k = m
    cases m <;> exact ⟨_, rfl⟩

theorem falsy_convertible (v : Json) (h : truthy (.json v) = false) :
    convertible (some v) = true := by
  cases v <;> simp [truthy] at h <;> simp [convertible, Json.text]

theorem inherited_news (R : Host) (hR : NewsFree R) (j : Json) (s : String) :
    inherited R j ("news" ++ s) = .undefined := by
  cases j with
  | obj fs => simp [inherited, news_not_objectPrototype]
  | _ => simp [inherited, hR _ s, Supplied.val]

theorem getLastUpdateTime_iff (R : Host) (store : Store) (now : String) :
    (∃ u, getLastUpdateTime R store now = .ok u)
      ↔ loadData store now ≠ .null
        ∧ convertible (ownProperty (loadData store now) "lastUpdate") = true := by
  unfold getLastUpdateTime
  simp only
  by_cases hd : loadData store now = .null
  · simp [hd, getProp]
  · simp only [getProp_json R _ _ hd, ne_eq, hd, not_false_eq_true, true_and]
    cases hown : ownProperty (loadData store now) "lastUpdate" with
    | none =>
      obtain ⟨p, hp⟩ := toPrimitive_inherited R (loadData store now) "lastUpdate"
      simp only [hp, convertible, iff_true]
      split <;> exact ⟨_, rfl⟩
    | some v =>
      simp only
      by_cases ht : truthy (.json v) = true
      · simp only [ht, if_true]
        rw [← toPrimitive_json_iff R v]
        cases toPrimitive R (.json v) <;> simp
      · simp only [ht]
        have := falsy_convertible v (by simpa using ht)
        simp [this]

theorem slotOf_ok_iff (R : Host) (hR : NewsFree R) (fs : List (String × Json)) (c n : String)
    (hc : c ∉ objectPrototype) (slot : Val) :
    (slotOf R (.obj fs) c ("news" ++ n) = .ok slot ∧ slot ≠ .undefined ∧ slot ≠ .json .null)
      ↔ ∃ sec v, lookup fs c = some sec ∧ ownProperty sec ("news" ++ n) = some v
          ∧ v ≠ .null ∧ slot = .json v := by
  unfold slotOf
  simp only [getProp_field R fs c hc]
  cases hl : lookup fs c with
  | none => simp [getProp]
  | some sec =>
    simp only
    by_cases hs : sec = .null
    · subst hs
      simp [getProp, ownProperty]
    · rw [getProp_json R sec _ hs]
      cases hk : ownProperty sec ("news" ++ n) with
      | none =>
        simp only [inherited_news R hR, Except.ok.injEq]
        constructor
        · rintro ⟨rfl, h, -⟩
          exact absurd rfl h
        · rintro ⟨sec', v, hsec, hv, -⟩
          cases hsec
          rw [hk] at hv
          cases hv
      | some v =>
        simp only [Except.ok.injEq]
        constructor
        · rintro ⟨rfl, -, h⟩
          exact ⟨sec, v, rfl, hk, fun e => h (by rw [e]), rfl⟩
        · rintro ⟨sec', v', hsec, hv', hn, rfl⟩
          cases hsec
          rw [hk] at hv'
          cases hv'
          exact ⟨rfl, (fun h => by cases h), fun h => hn (by cases h; rfl)⟩

theorem fieldText_ok_iff (R : Host) (hR : NewsFree R) (fs : List (String × Json))
    (c n f : String) (hc : c ∉ objectPrototype) :
    (∃ t, fieldText R (.obj fs) c ("news" ++ n) f = .ok t)
      ↔ ∃ sec v, lookup fs c = some sec ∧ ownProperty sec ("news" ++ n) = some v
          ∧ v ≠ .null ∧ convertible (ownProperty v f) = true := by
  unfold fieldText slotOf
  simp only [getProp_field R fs c hc]
  cases hl : lookup fs c with
  | none => simp [getProp]
  | some sec =>
    simp only [Option.some.injEq, exists_and_left, exists_eq_left']
    by_cases hs : sec = .null
    · subst hs
      simp [getProp, ownProperty]
    · rw [getProp_json R sec _ hs]
      cases hk : ownProperty sec ("news" ++ n) with
      | none => simp [inherited_news R hR, getProp]
      | some v =>
        simp only [Option.some.injEq, exists_eq_left']
        by_cases hv : v = .null
        · subst hv
          simp [getProp]
        · rw [getProp_json R v _ hv]
          simp only [ne_eq, hv, not_false_eq_true, true_and]
          cases hf : ownProperty v f with
          | none =>
            obtain ⟨t, ht⟩ := toStr_inherited R v f
            simp [ht, convertible]
          | some t =>
            simp only
            exact toStr_json_iff R t

theorem fieldText_slotAt_iff (R : Host) (hR : NewsFree R) (fs : List (String × Json))
    (c k n f : String) (hc : c ∉ objectPrototype) (hk : k = "news" ++ n) :
    (∃ t, fieldText R (.obj fs) c k f = .ok t)
      ↔ ∃ v, slotAt (.obj fs) c k = some v ∧ v ≠ .null
          ∧ convertible (ownProperty v f) = true := by
  subst hk
  rw [fieldText_ok_iff R hR fs c n f hc]
  simp only [slotAt, ownProperty]
  cases lookup fs c with
  | none => simp
  | some sec => simp

theorem titleLines_ok_iff (R : Host) (hR : NewsFree R) (fs : List (String × Json))
    (c : String) (hc : c ∉ objectPrototype) :
    (∃ m, titleLines R (.obj fs) c = .ok m)
      ↔ ∀ k, k ∈ ["news1", "news2", "news3"] →
          ∃ v, slotAt (.obj fs) c k = some v ∧ v ≠ .null
            ∧ ∀ f, f ∈ ["title"] → convertible (ownProperty v f) = true := by
  have h1 := fieldText_slotAt_iff R hR fs c "news1" "1" "title" hc (by decide)
  have h2 := fieldText_slotAt_iff R hR fs c "news2" "2" "title" hc (by decide)
  have h3 := fieldText_slotAt_iff R hR fs c "news3" "3" "title" hc (by decide)
  simp only [List.mem_cons, List.mem_singleton, List.not_mem_nil, or_false, forall_eq_or_imp,
    forall_eq]
  rw [← h1, ← h2, ← h3]
  unfold titleLines
  cases fieldText R (.obj fs) c "news1" "title" <;>
    cases fieldText R (.obj fs) c "news2" "title" <;>
    cases fieldText R (.obj fs) c "news3" "title" <;> simp

theorem linkLine_ok_iff (R : Host) (hR : NewsFree R) (fs : List (String × Json))
    (c k n : String) (hc : c ∉ objectPrototype) (hk : "news" ++ n = k) :
    (∃ m, linkLine R (.obj fs) c n = .ok m)
      ↔ ∃ v, slotAt (.obj fs) c k = some v ∧ v ≠ .null
          ∧ ∀ f, f ∈ ["title", "link"] → convertible (ownProperty v f) = true := by
  subst hk
  have h1 := fieldText_slotAt_iff R hR fs c _ n "title" hc rfl
  have h2 := fieldText_slotAt_iff R hR fs c _ n "link" hc rfl
  have hmerge : (∃ v, slotAt (.obj fs) c ("news" ++ n) = some v ∧ v ≠ .null
        ∧ ∀ f, f ∈ ["title", "link"] → convertible (ownProperty v f) = true)
      ↔ (∃ v, slotAt (.obj fs) c ("news" ++ n) = some v ∧ v ≠ .null
          ∧ convertible (ownProperty v "title") = true)
        ∧ (∃ v, slotAt (.obj fs) c ("news" ++ n) = some v ∧ v ≠ .null
          ∧ convertible (ownProperty v "link") = true) := by
    simp only [List.mem_cons, List.mem_singleton, List.not_mem_nil, or_false,
      forall_eq_or_imp, forall_eq]
    cases slotAt (.obj fs) c ("news" ++ n) with
    | none => simp
    | some v => simp; tauto
  rw [hmerge, ← h1, ← h2]
  unfold linkLine
  cases fieldText R (.obj fs) c ("news" ++ n) "title" <;>
    cases fieldText R (.obj fs) c ("news" ++ n) "link" <;> simp

theorem linkLines_ok_iff (R : Host) (hR : NewsFree R) (fs : List (String × Json))
    (c : String) (hc : c ∉ objectPrototype) :
    (∃ m, linkLines R (.obj fs) c = .ok m)
      ↔ ∀ k, k ∈ ["news1", "news2", "news3"] →
          ∃ v, slotAt (.obj fs) c k = some v ∧ v ≠ .null
            ∧ ∀ f, f ∈ ["title", "link"] → convertible (ownProperty v f) = true := by
  have h1 := linkLine_ok_iff R hR fs c "news1" "1" hc (by decide)
  have h2 := linkLine_ok_iff R hR fs c "news2" "2" hc (by decide)
  have h3 := linkLine_ok_iff R hR fs c "news3" "3" hc (by decide)
  rw [List.forall_mem_cons, List.forall_mem_cons, List.forall_mem_singleton,
    ← h1, ← h2, ← h3]
  unfold linkLines
  cases linkLine R (.obj fs) c "1" <;> cases linkLine R (.obj fs) c "2" <;>
    cases linkLine R (.obj fs) c "3" <;> simp

theorem dateStr_ok_iff (R : Host) (fs : List (String × Json)) :
    (∃ d, dateStr R (.obj fs) = .ok d) ↔ convertible (lookup fs "date") = true := by
  unfold dateStr
  simp only [getProp_field R fs "date" (by decide)]
  cases lookup fs "date" with
  | none => simp [toPrimitive, convertible]
  | some v =>
    simp only
    rw [← toPrimitive_json_iff R v]
    cases toPrimitive R (.json v) <;> simp

theorem slotsReadable_iff (fs : List (String × Json)) (fields : List String) :
    SlotsReadable fs fields
      ↔ (∀ k, k ∈ ["news1", "news2", "news3"] →
          ∃ v, slotAt (.obj fs) "policy" k = some v ∧ v ≠ .null
            ∧ ∀ f, f ∈ fields → convertible (ownProperty v f) = true)
        ∧ (∀ k, k ∈ ["news1", "news2", "news3"] →
          ∃ v, slotAt (.obj fs) "industry" k = some v ∧ v ≠ .null
            ∧ ∀ f, f ∈ fields → convertible (ownProperty v f) = true)
        ∧ (∀ k, k ∈ ["news1", "news2", "news3"] →
          ∃ v, slotAt (.obj fs) "tech" k = some v ∧ v ≠ .null
            ∧ ∀ f, f ∈ fields → convertible (ownProperty v f) = true) := by
  unfold SlotsReadable
  constructor
  · intro h
    exact ⟨h _ (by simp), h _ (by simp), h _ (by simp)⟩
  · rintro ⟨hp, hi, ht⟩ c hc
    simp only [List.mem_cons, List.mem_singleton, List.not_mem_nil, or_false] at hc
    rcases hc with rfl | rfl | rfl
    · exact hp
    · exact hi
    · exact ht

theorem generateWeChatMessage_ok_iff (R : Host) (hR : NewsFree R) (store : Store)
    (now : String) (fs : List (String × Json)) (hd : loadData store now = .obj fs) :
    (∃ m, generateWeChatMessage R store now = .ok m)
      ↔ convertible (lookup fs "date") = true ∧ SlotsReadable fs ["title"] := by
  rw [slotsReadable_iff, ← dateStr_ok_iff R fs, ← titleLines_ok_iff R hR fs _ (by decide),
    ← titleLines_ok_iff R hR fs _ (by decide), ← titleLines_ok_iff R hR fs _ (by decide)]
  unfold generateWeChatMessage
  simp only [hd]
  cases dateStr R (.obj fs) <;> cases titleLines R (.obj fs) "policy" <;>
    cases titleLines R (.obj fs) "industry" <;> cases titleLines R (.obj fs) "tech" <;> simp

theorem generateMarkdown_ok_iff (R : Host) (hR : NewsFree R) (store : Store)
    (now : String) (fs : List (String × Json)) (hd : loadData store now = .obj fs) :
    (∃ m, generateMarkdown R store now = .ok m)
      ↔ convertible (lookup fs "date") = true ∧ SlotsReadable fs ["title", "link"] := by
  rw [slotsReadable_iff, ← dateStr_ok_iff R fs, ← linkLines_ok_iff R hR fs _ (by decide),
    ← linkLines_ok_iff R hR fs _ (by decide), ← linkLines_ok_iff R hR fs _ (by decide)]
  unfold generateMarkdown
  simp only [hd]
  cases dateStr R (.obj fs) <;> cases linkLines R (.obj fs) "policy" <;>
    cases linkLines R (.obj fs) "industry" <;> cases linkLines R (.obj fs) "tech" <;> simp

theorem newsOf_ok_iff (R : Host) (fs : List (String × Json)) (c : String)
    (hc : c ∉ objectPrototype) :
    (∃ l, newsOf R (.obj fs) c = .ok l) ↔ ∃ v, lookup fs c = some v ∧ v ≠ .null := by
  unfold newsOf slotOf
  simp only [getProp_field R fs c hc]
  cases lookup fs c with
  | none => simp [getProp]
  | some v =>
    by_cases hv : v = .null
    · subst hv
      simp [getProp]
    · simp [getProp_json R v _ hv, hv]

theorem generateAPIData_ok_iff (R : Host) (store : Store) (now : String)
    (fs : List (String × Json)) (hd : loadData store now = .obj fs) :
    (∃ a, generateAPIData R store now = .ok a) ↔ SectionsPresent fs := by
  have hsec : SectionsPresent fs
      ↔ (∃ v, lookup fs "policy" = some v ∧ v ≠ .null)
        ∧ (∃ v, lookup fs "industry" = some v ∧ v ≠ .null)
        ∧ (∃ v, lookup fs "tech" = some v ∧ v ≠ .null) := by
    unfold SectionsPresent
    constructor
    · intro h
      exact ⟨h _ (by simp), h _ (by simp), h _ (by simp)⟩
    · rintro ⟨hp, hi, ht⟩ c hc
      simp only [List.mem_cons, List.mem_singleton, List.not_mem_nil, or_false] at hc
      rcases hc with rfl | rfl | rfl
      · exact hp
      · exact hi
      · exact ht
  rw [hsec, ← newsOf_ok_iff R fs "policy" (by decide),
    ← newsOf_ok_iff R fs "industry" (by decide), ← newsOf_ok_iff R fs "tech" (by decide)]
  unfold generateAPIData
  simp only [hd, getProp_field R fs "date" (by decide),
    getProp_field R fs "lastUpdate" (by decide)]
  cases newsOf R (.obj fs) "policy" <;> cases newsOf R (.obj fs) "industry" <;>
    cases newsOf R (.obj fs) "tech" <;> simp

theorem updateSingleNews_ok_iff (R : Host) (hR : NewsFree R) (store : Store)
    (tLoad tSave : String) (writeOk : Bool) (category : String) (newsNumber : JsNumber)
    (title link : String) :
    (∃ b, (updateSingleNews R store tLoad tSave writeOk category newsNumber title link).1
        = .ok b) ↔ loadData store tLoad ≠ .null := by
  constructor
  · rintro ⟨b, hb⟩ hnull
    simp [updateSingleNews, hnull, getProp] at hb
  · exact updateSingleNews_returns_of_ne_null R hR store tLoad tSave writeOk category
      newsNumber title link

theorem updateCategoryNews_ok_iff (R : Host) (hR : NewsFree R) (store : Store)
    (tLoad tSave : String) (writeOk : Bool) (category : String) (items : List Val) :
    (∃ b, (updateCategoryNewsWith R store tLoad tSave writeOk category (.array items)).1
        = .ok b) ↔ loadData store tLoad ≠ .null := by
  constructor
  · rintro ⟨b, hb⟩ hnull
    simp [updateCategoryNewsWith, updateCategoryNews, hnull, getProp] at hb
  · exact updateCategoryNews_returns_of_ne_null R hR store tLoad tSave writeOk category items

theorem isToday_ok_iff (R : Host) (store : Store) (tLoad now : String) :
    (∃ b, isToday R store tLoad now = .ok b) ↔ loadData store tLoad ≠ .null := by
  constructor
  · rintro ⟨b, hb⟩ hnull
    simp [isToday, hnull, getProp] at hb
  · exact isToday_returns_of_ne_null R store tLoad now

theorem notArray_ok_iff (R : Host) (store : Store) (tLoad tSave : String)
    (writeOk : Bool) (category : String) (fs : List (String × Json))
    (hd : loadData store tLoad = .obj fs) :
    (∃ b, (updateCategoryNewsWith R store tLoad tSave writeOk category .notArray).1 = .ok b)
      ↔ hasMember fs category = false := by
  rw [updateCategoryNewsWith_notArray R store tLoad tSave writeOk category fs hd]
  cases hasMember fs category <;> simp

theorem convertible_of_itemShape (member : Option Json) (i : NewsItem)
    (h : ItemShape member i) :
    ∃ v, member = some v ∧ v ≠ .null
      ∧ ∀ f, f ∈ ["title", "link"] → convertible (ownProperty v f) = true := by
  obtain ⟨item, hi, ht, hl⟩ := h
  refine ⟨.obj item, hi, (fun h => by cases h), ?_⟩
  intro f hf
  simp only [List.mem_cons, List.mem_singleton, List.not_mem_nil, or_false] at hf
  rcases hf with rfl | rfl
  · simp [ownProperty, ht, convertible, Json.text]
  · simp [ownProperty, hl, convertible, Json.text]

theorem slotsReadable_of_digestShape (fs : List (String × Json)) (D : NewsDigest)
    (h : DigestShape (.obj fs) D) : SlotsReadable fs ["title", "link"] := by
  obtain ⟨fs₀, h₀, -, -, hp, hi, ht⟩ := h
  cases h₀
  have hsec : ∀ c s, SectionShape (lookup fs c) s →
      ∀ k, k ∈ ["news1", "news2", "news3"] →
        ∃ v, slotAt (.obj fs) c k = some v ∧ v ≠ .null
          ∧ ∀ f, f ∈ ["title", "link"] → convertible (ownProperty v f) = true := by
    intro c s ⟨sec, hl, h1, h2, h3⟩ k hk
    simp only [slotAt, ownProperty, hl]
    simp only [List.mem_cons, List.mem_singleton, List.not_mem_nil, or_false] at hk
    rcases hk with rfl | rfl | rfl
    · exact convertible_of_itemShape _ _ h1
    · exact convertible_of_itemShape _ _ h2
    · exact convertible_of_itemShape _ _ h3
  intro c hc
  simp only [List.mem_cons, List.mem_singleton, List.not_mem_nil, or_false] at hc
  rcases hc with rfl | rfl | rfl
  · exact hsec _ _ hp
  · exact hsec _ _ hi
  · exact hsec _ _ ht

theorem slotsReadable_mono (fs : List (String × Json)) (fields fields' : List String)
    (hsub : ∀ f, f ∈ fields' → f ∈ fields) (h : SlotsReadable fs fields) :
    SlotsReadable fs fields' := by
  intro c hc k hk
  obtain ⟨v, hv, hn, hf⟩ := h c hc k hk
  exact ⟨v, hv, hn, fun f hmem => hf f (hsub f hmem)⟩

theorem sectionsPresent_of_digestShape (fs : List (String × Json)) (D : NewsDigest)
    (h : DigestShape (.obj fs) D) : SectionsPresent fs := by
  obtain ⟨fs₀, h₀, -, -, ⟨p, hp, -⟩, ⟨i, hi, -⟩, ⟨t, ht, -⟩⟩ := h
  cases h₀
  intro c hc
  simp only [List.mem_cons, List.mem_singleton, List.not_mem_nil, or_false] at hc
  rcases hc with rfl | rfl | rfl
  · exact ⟨_, hp, by intro h; cases h⟩
  · exact ⟨_, hi, by intro h; cases h⟩
  · exact ⟨_, ht, by intro h; cases h⟩

/-! ## Properties -/

/-- C1. When the loaded digest is an object whose section `c` (any key but
`lastUpdate`) is an object holding a truthy slot `news<n>`, and the write
succeeds, `updateSingleNews(c, n, T, L)` returns true; the digest loaded
afterwards has `c.news<n>` equal to `{title: T, link: L}`, every other slot of
`c` and every other top-level member except `lastUpdate` (the other sections,
the date) as before. -/
theorem updateSingleNews_sets_slot (R : Host) (store : Store) (tLoad tSave c : String)
    (n : JsNumber) (T L : String) (fs sec : List (String × Json)) (old : Json)
    (hd : loadData store tLoad = .obj fs) (hc : c ≠ "lastUpdate")
    (hsec : lookup fs c = some (.obj sec))
    (hslot : lookup sec ("news" ++ n.text) = some old)
    (hold : truthy (.json old) = true) :
    ∃ fs' sec',
      (updateSingleNews R store tLoad tSave true c n T L).1 = .ok true
      ∧ (∀ t, loadData (updateSingleNews R store tLoad tSave true c n T L).2 t = .obj fs')
      ∧ lookup fs' c = some (.obj sec')
      ∧ lookup sec' ("news" ++ n.text) = some (.obj [("title", .str T), ("link", .str L)])
      ∧ (∀ k, k ≠ "news" ++ n.text → lookup sec' k = lookup sec k)
      ∧ (∀ k, k ≠ c → k ≠ "lastUpdate" → lookup fs' k = lookup fs k) := by
  refine ⟨setField (setField fs c (.obj (setField sec ("news" ++ n.text)
      (.obj [("title", .str T), ("link", .str L)])))) "lastUpdate" (.str tSave),
    setField sec ("news" ++ n.text) (.obj [("title", .str T), ("link", .str L)]), ?_⟩
  have hrun : updateSingleNews R store tLoad tSave true c n T L
      = (.ok true, some (.json (.obj (setField (setField fs c (.obj (setField sec
          ("news" ++ n.text) (.obj [("title", .str T), ("link", .str L)]))))
          "lastUpdate" (.str tSave))))) := by
    have hobj : truthy (.json (.obj sec)) = true := rfl
    simp [updateSingleNews, hd, getProp, ownProperty, hsec, hslot, hold, hobj, putSlot,
      putNamed, replaceOwn, saveData]
  refine ⟨by rw [hrun], ?_, ?_, ?_, ?_, ?_⟩
  · intro t; rw [hrun]; rfl
  · rw [lookup_setField_of_ne _ _ _ _ hc, lookup_setField_self]
  · exact lookup_setField_self _ _ _
  · intro k hk; exact lookup_setField_of_ne _ _ _ _ hk
  · intro k hk hk'
    rw [lookup_setField_of_ne _ _ _ _ hk', lookup_setField_of_ne _ _ _ _ hk]

/-- C1, at the specification's example: on a fresh (empty) store,
`updateSingleNews("policy", 2, "T", "L")`. -/
theorem updateSingleNews_sets_slot_witness :
    ∃ fs' sec',
      (updateSingleNews sampleHost none "2024-05-06T07:08:09.000Z"
        "2024-05-06T07:08:10.000Z" true "policy" ⟨"2"⟩ "T" "L").1 = .ok true
      ∧ (∀ t, loadData (updateSingleNews sampleHost none "2024-05-06T07:08:09.000Z"
        "2024-05-06T07:08:10.000Z" true "policy" ⟨"2"⟩ "T" "L").2 t = .obj fs')
      ∧ lookup fs' "policy" = some (.obj sec')
      ∧ lookup sec' ("news2")
          = some (.obj [("title", .str "T"), ("link", .str "L")])
      ∧ (∀ k, k ≠ "news2" →
          lookup sec' k = lookup [("news1", placeholder), ("news2", placeholder),
            ("news3", placeholder)] k)
      ∧ (∀ k, k ≠ "policy" → k ≠ "lastUpdate" →
          lookup fs' k = lookup [("date", .str "2024-05-06"),
            ("lastUpdate", .str "2024-05-06T07:08:09.000Z"), ("policy", defaultSection),
            ("industry", defaultSection), ("tech", defaultSection)] k) :=
  updateSingleNews_sets_slot sampleHost none "2024-05-06T07:08:09.000Z"
    "2024-05-06T07:08:10.000Z" "policy" ⟨"2"⟩ "T" "L" _ _ placeholder rfl (by decide) rfl rfl rfl

/-- C2. On a host whose built-in prototypes have no member named `news…`, for
every store state the module can leave (the empty store and whatever
`saveData`, the updates, `importFromJSON` and `clearData` make of it), every
category name and every slot number: when the loaded value has no own property
`category`, or that property has no own property `news<slotNumber>`,
`updateSingleNews` returns false and the store is exactly as before (an empty
store stays empty), whether or not a write would have succeeded. -/
theorem updateSingleNews_absent (R : Host) (hR : NewsFree R) (store : Store)
    (hstore : Reachable R store)
    (tLoad tSave : String) (writeOk : Bool) (category : String) (newsNumber : JsNumber)
    (title link : String)
    (habs : ownProperty (loadData store tLoad) category = none
      ∨ ∃ sec, ownProperty (loadData store tLoad) category = some sec
          ∧ ownProperty sec ("news" ++ newsNumber.text) = none) :
    updateSingleNews R store tLoad tSave writeOk category newsNumber title link
      = (.ok false, store) :=
  updateSingleNews_absent_of_ne_null R hR store tLoad tSave writeOk category newsNumber
    title link (reachable_loadData_ne_null R store hstore tLoad) habs

/-- C2, at the specification's example and at a missing slot: the category
`nonexistent` on an empty store, which stays empty; and the slot number 4 of
`policy` on the store a save has left, whose `lastUpdate` stays as it was. -/
theorem updateSingleNews_absent_witness :
    updateSingleNews sampleHost none "2024-05-06T07:08:09.000Z" "2024-05-06T07:08:10.000Z"
      true "nonexistent" ⟨"1"⟩ "T" "L" = (.ok false, none)
    ∧ updateSingleNews sampleHost
        (saveData none "2024-05-06T07:08:09.000Z" true sampleDigest.toJson).2
        "2024-05-06T07:08:10.000Z" "2024-05-06T07:08:11.000Z" true "policy" ⟨"4"⟩ "T" "L"
      = (.ok false, (saveData none "2024-05-06T07:08:09.000Z" true sampleDigest.toJson).2) :=
  ⟨updateSingleNews_absent sampleHost sampleHost_newsFree none (Reachable.empty) _ _ true
      "nonexistent" ⟨"1"⟩ "T" "L" (Or.inl rfl),
    updateSingleNews_absent sampleHost sampleHost_newsFree _
      (Reachable.saved none "2024-05-06T07:08:09.000Z" true sampleDigest.toJson
        Reachable.empty) _ _ true "policy" ⟨"4"⟩ "T" "L" (Or.inr ⟨_, rfl, rfl⟩)⟩

/-- Outside the stores the module leaves: a store into which something else
has put the JSON text `null` loads as `null`, and `updateSingleNews` raises a
`TypeError` at `data[category]`. -/
theorem updateSingleNews_raises_on_foreign_null :
    (updateSingleNews sampleHost (some (.json .null)) "2024-05-06T07:08:09.000Z"
        "2024-05-06T07:08:10.000Z" true "nonexistent" ⟨"1"⟩ "T" "L").1 = .error .typeError :=
  rfl

/-- C5. For every digest object `d` and every store, a successful
`saveData(d)` returns true, and `loadData` afterwards returns an object whose
`lastUpdate` is the time of the save and whose every other member (the date,
the three sections and with them all nine slots) is that of `d`. -/
theorem saveData_then_loadData (store : Store) (now : String) (fs : List (String × Json)) :
    ∃ fs',
      (saveData store now true (.obj fs)).1 = true
      ∧ (∀ t, loadData (saveData store now true (.obj fs)).2 t = .obj fs')
      ∧ lookup fs' "lastUpdate" = some (.str now)
      ∧ lookup fs' "date" = lookup fs "date"
      ∧ (∀ k, k ≠ "lastUpdate" → lookup fs' k = lookup fs k)
      ∧ (∀ c k, c ≠ "lastUpdate" → slotAt (.obj fs') c k = slotAt (.obj fs) c k) := by
  refine ⟨setField fs "lastUpdate" (.str now), rfl, fun _ => rfl,
    lookup_setField_self _ _ _, lookup_setField_of_ne _ _ _ _ (by decide),
    fun k hk => lookup_setField_of_ne _ _ _ _ hk, ?_⟩
  intro c k hc
  simp only [slotAt, ownProperty, lookup_setField_of_ne _ _ _ _ hc]

/-- C6. `importFromJSON` given a text that `JSON.parse` rejects (empty or
malformed) rejects with the parse error, and the store is exactly as before,
whatever it held and whether or not a write would have succeeded. -/
theorem importFromJSON_rejects_unparseable (store : Store) (now : String) (writeOk : Bool) :
    importFromJSON store now writeOk (some .malformed) = (.error .parseError, store)
    ∧ importFromJSON store now writeOk (some .empty) = (.error .parseError, store) :=
  ⟨rfl, rfl⟩

/-- C8. For every store and every current time, whose ISO text is a date
part without a `T`, then `T`, then the time part: `loadData` after `clearData`
returns a digest whose nine slots are the placeholder item and whose date is
that date part. -/
theorem loadData_after_clearData (store : Store) (date rest : String)
    (hdate : 'T' ∉ date.data) :
    ownProperty (loadData (clearData store) (date ++ "T" ++ rest)) "date" = some (.str date)
    ∧ slotAt (loadData (clearData store) (date ++ "T" ++ rest)) "policy" "news1"
        = some (.obj [("title", .str "请更新新闻标题"), ("link", .str "#")])
    ∧ slotAt (loadData (clearData store) (date ++ "T" ++ rest)) "policy" "news2"
        = some (.obj [("title", .str "请更新新闻标题"), ("link", .str "#")])
    ∧ slotAt (loadData (clearData store) (date ++ "T" ++ rest)) "policy" "news3"
        = some (.obj [("title", .str "请更新新闻标题"), ("link", .str "#")])
    ∧ slotAt (loadData (clearData store) (date ++ "T" ++ rest)) "industry" "news1"
        = some (.obj [("title", .str "请更新新闻标题"), ("link", .str "#")])
    ∧ slotAt (loadData (clearData store) (date ++ "T" ++ rest)) "industry" "news2"
        = some (.obj [("title", .str "请更新新闻标题"), ("link", .str "#")])
    ∧ slotAt (loadData (clearData store) (date ++ "T" ++ rest)) "industry" "news3"
        = some (.obj [("title", .str "请更新新闻标题"), ("link", .str "#")])
    ∧ slotAt (loadData (clearData store) (date ++ "T" ++ rest)) "tech" "news1"
        = some (.obj [("title", .str "请更新新闻标题"), ("link", .str "#")])
    ∧ slotAt (loadData (clearData store) (date ++ "T" ++ rest)) "tech" "news2"
        = some (.obj [("title", .str "请更新新闻标题"), ("link", .str "#")])
    ∧ slotAt (loadData (clearData store) (date ++ "T" ++ rest)) "tech" "news3"
        = some (.obj [("title", .str "请更新新闻标题"), ("link", .str "#")]) := by
  refine ⟨?_, rfl, rfl, rfl, rfl, rfl, rfl, rfl, rfl, rfl⟩
  show some (Json.str (isoDate (date ++ "T" ++ rest))) = some (Json.str date)
  rw [isoDate_append date rest hdate]

/-- C8, at the clock reading `2024-05-06T07:08:09.000Z` on a store that held
an unparseable text. -/
theorem loadData_after_clearData_witness :
    ownProperty (loadData (clearData (some Text.malformed))
        ("2024-05-06" ++ "T" ++ "07:08:09.000Z")) "date" = some (.str "2024-05-06")
    ∧ slotAt (loadData (clearData (some Text.malformed))
        ("2024-05-06" ++ "T" ++ "07:08:09.000Z")) "policy" "news1"
        = some (.obj [("title", .str "请更新新闻标题"), ("link", .str "#")])
    ∧ slotAt (loadData (clearData (some Text.malformed))
        ("2024-05-06" ++ "T" ++ "07:08:09.000Z")) "policy" "news2"
        = some (.obj [("title", .str "请更新新闻标题"), ("link", .str "#")])
    ∧ slotAt (loadData (clearData (some Text.malformed))
        ("2024-05-06" ++ "T" ++ "07:08:09.000Z")) "policy" "news3"
        = some (.obj [("title", .str "请更新新闻标题"), ("link", .str "#")])
    ∧ slotAt (loadData (clearData (some Text.malformed))
        ("2024-05-06" ++ "T" ++ "07:08:09.000Z")) "industry" "news1"
        = some (.obj [("title", .str "请更新新闻标题"), ("link", .str "#")])
    ∧ slotAt (loadData (clearData (some Text.malformed))
        ("2024-05-06" ++ "T" ++ "07:08:09.000Z")) "industry" "news2"
        = some (.obj [("title", .str "请更新新闻标题"), ("link", .str "#")])
    ∧ slotAt (loadData (clearData (some Text.malformed))
        ("2024-05-06" ++ "T" ++ "07:08:09.000Z")) "industry" "news3"
        = some (.obj [("title", .str "请更新新闻标题"), ("link", .str "#")])
    ∧ slotAt (loadData (clearData (some Text.malformed))
        ("2024-05-06" ++ "T" ++ "07:08:09.000Z")) "tech" "news1"
        = some (.obj [("title", .str "请更新新闻标题"), ("link", .str "#")])
    ∧ slotAt (loadData (clearData (some Text.malformed))
        ("2024-05-06" ++ "T" ++ "07:08:09.000Z")) "tech" "news2"
        = some (.obj [("title", .str "请更新新闻标题"), ("link", .str "#")])
    ∧ slotAt (loadData (clearData (some Text.malformed))
        ("2024-05-06" ++ "T" ++ "07:08:09.000Z")) "tech" "news3"
        = some (.obj [("title", .str "请更新新闻标题"), ("link", .str "#")]) :=
  loadData_after_clearData (some Text.malformed) "2024-05-06" "07:08:09.000Z" (by decide)

/-- C3, refuted as stated: when the store rejects the write (`setItem` throws),
`updateCategoryNews("tech", [{title:"A"}, {}, {link:"X"}])` on a fresh store
returns false and stores nothing; the digest loaded afterwards still has the
placeholder in `tech.news1`, not the title `A`. -/
theorem updateCategoryNews_failed_write :
    updateCategoryNews sampleHost none "2024-05-06T07:08:09.000Z"
        "2024-05-06T07:08:10.000Z" false "tech"
        [.json (.obj [("title", .str "A")]), .json (.obj []), .json (.obj [("link", .str "X")])]
      = (.ok false, none)
    ∧ slotAt (loadData (updateCategoryNews sampleHost none "2024-05-06T07:08:09.000Z"
        "2024-05-06T07:08:10.000Z" false "tech"
        [.json (.obj [("title", .str "A")]), .json (.obj []),
          .json (.obj [("link", .str "X")])]).2 "2024-05-06T07:08:11.000Z") "tech" "news1"
      = some (.obj [("title", .str "请更新新闻标题"), ("link", .str "#")]) :=
  ⟨rfl, rfl⟩

/-- C3, amended. When the loaded digest is an object whose section `c` is an
object holding the slots `news1`, `news2`, `news3`, each an object, then for
every list of input item objects: if the write succeeds,
`updateCategoryNews(c, items)` returns true and, in the digest loaded
afterwards, each slot `news<i>` with an item at position `i` has the item's
title when that is present and non-empty and the slot's previous title
otherwise, and independently so for the link; a slot with no item at its
position is as before, items past position 3 leave the three slots alone, and
every other top-level member except `lastUpdate` (the two other sections, the
date) is as before. If the write fails, it returns false and the store is as
before. -/
theorem updateCategoryNews_merges (R : Host) (store : Store) (tLoad tSave c : String)
    (items : List (List (String × Json))) (fs sec o1 o2 o3 : List (String × Json))
    (hd : loadData store tLoad = .obj fs) (hc : c ≠ "lastUpdate")
    (hsec : lookup fs c = some (.obj sec))
    (h1 : lookup sec "news1" = some (.obj o1))
    (h2 : lookup sec "news2" = some (.obj o2))
    (h3 : lookup sec "news3" = some (.obj o3)) :
    ∃ fs' sec',
      (updateCategoryNews R store tLoad tSave true c
        (items.map fun i => Val.json (.obj i))).1 = .ok true
      ∧ (∀ t, loadData (updateCategoryNews R store tLoad tSave true c
          (items.map fun i => Val.json (.obj i))).2 t = .obj fs')
      ∧ lookup fs' c = some (.obj sec')
      ∧ SlotAfter sec' "news1" items[0]? o1
      ∧ SlotAfter sec' "news2" items[1]? o2
      ∧ SlotAfter sec' "news3" items[2]? o3
      ∧ (∀ k, k ≠ c → k ≠ "lastUpdate" → lookup fs' k = lookup fs k)
      ∧ updateCategoryNews R store tLoad tSave false c
          (items.map fun i => Val.json (.obj i)) = (.ok false, store) := by
  obtain ⟨sec', hrun, s1, s2, s3⟩ :=
    forEachNews_merge R c items fs sec o1 o2 o3 hsec h1 h2 h3
  have hv : getProp R (.json (.obj fs)) c = .ok (.json (.obj sec)) := by
    rw [getProp_json R _ _ (by intro h; cases h)]
    simp [ownProperty, hsec]
  have hobj : truthy (.json (.obj sec)) = true := rfl
  have hres : updateCategoryNews R store tLoad tSave true c
      (items.map fun i => Val.json (.obj i))
      = (.ok true, some (.json (.obj (setField (setField fs c (.obj sec')) "lastUpdate"
          (.str tSave))))) := by
    simp [updateCategoryNews, hd, hv, hobj, hrun, saveData, putNamed]
  refine ⟨setField (setField fs c (.obj sec')) "lastUpdate" (.str tSave), sec',
    by rw [hres], ?_, ?_, s1, s2, s3, ?_, ?_⟩
  · intro t; rw [hres]; rfl
  · rw [lookup_setField_of_ne _ _ _ _ hc, lookup_setField_self]
  · intro k hk hk'
    rw [lookup_setField_of_ne _ _ _ _ hk', lookup_setField_of_ne _ _ _ _ hk]
  · simp [updateCategoryNews, hd, hv, hobj, hrun, saveData, putNamed]

/-- C3 amended, at the specification's example: on a fresh store,
`updateCategoryNews("tech", [{title:"A"}, {}, {link:"X"}])`. -/
theorem updateCategoryNews_merges_witness :
    ∃ fs' sec',
      (updateCategoryNews sampleHost none "2024-05-06T07:08:09.000Z"
        "2024-05-06T07:08:10.000Z" true "tech"
        ([[("title", Json.str "A")], [], [("link", Json.str "X")]].map
          fun i => Val.json (.obj i))).1 = .ok true
      ∧ (∀ t, loadData (updateCategoryNews sampleHost none "2024-05-06T07:08:09.000Z"
          "2024-05-06T07:08:10.000Z" true "tech"
          ([[("title", Json.str "A")], [], [("link", Json.str "X")]].map
            fun i => Val.json (.obj i))).2 t = .obj fs')
      ∧ lookup fs' "tech" = some (.obj sec')
      ∧ SlotAfter sec' "news1"
          [[("title", Json.str "A")], [], [("link", Json.str "X")]][0]?
          [("title", .str "请更新新闻标题"), ("link", .str "#")]
      ∧ SlotAfter sec' "news2"
          [[("title", Json.str "A")], [], [("link", Json.str "X")]][1]?
          [("title", .str "请更新新闻标题"), ("link", .str "#")]
      ∧ SlotAfter sec' "news3"
          [[("title", Json.str "A")], [], [("link", Json.str "X")]][2]?
          [("title", .str "请更新新闻标题"), ("link", .str "#")]
      ∧ (∀ k, k ≠ "tech" → k ≠ "lastUpdate" →
          lookup fs' k = lookup [("date", .str "2024-05-06"),
            ("lastUpdate", .str "2024-05-06T07:08:09.000Z"), ("policy", defaultSection),
            ("industry", defaultSection), ("tech", defaultSection)] k)
      ∧ updateCategoryNews sampleHost none "2024-05-06T07:08:09.000Z"
          "2024-05-06T07:08:10.000Z" false "tech"
          ([[("title", Json.str "A")], [], [("link", Json.str "X")]].map
            fun i => Val.json (.obj i)) = (.ok false, none) :=
  updateCategoryNews_merges sampleHost none "2024-05-06T07:08:09.000Z"
    "2024-05-06T07:08:10.000Z" "tech" _ _ _ _ _ _ rfl (by decide) rfl rfl rfl rfl

/-- The specification's example of a merge, evaluated: the store after
`updateCategoryNews("tech", [{title:"A"}, {}, {link:"X"}])` on a fresh
store. -/
theorem updateCategoryNews_example :
    updateCategoryNews sampleHost none "2024-05-06T07:08:09.000Z"
        "2024-05-06T07:08:10.000Z" true "tech"
        [.json (.obj [("title", .str "A")]), .json (.obj []), .json (.obj [("link", .str "X")])]
      = (.ok true, some (.json (.obj
          [("date", .str "2024-05-06"),
           ("lastUpdate", .str "2024-05-06T07:08:10.000Z"),
           ("policy", defaultSection),
           ("industry", defaultSection),
           ("tech", .obj
             [("news1", .obj [("title", .str "A"), ("link", .str "#")]),
              ("news2", .obj [("title", .str "请更新新闻标题"), ("link", .str "#")]),
              ("news3", .obj [("title", .str "请更新新闻标题"), ("link", .str "X")])])]))) := by
  rfl

/-- C4, refuted as stated: on a fresh store `updateCategoryNews("date", [])`
returns true although `date` is not a section, and
`updateCategoryNews("policy", [])` returns false when the write fails although
`policy` is a section. -/
theorem updateCategoryNews_not_exactly_sections :
    (updateCategoryNews sampleHost none "2024-05-06T07:08:09.000Z"
        "2024-05-06T07:08:10.000Z" true "date" []).1 = .ok true
    ∧ (updateCategoryNews sampleHost none "2024-05-06T07:08:09.000Z"
        "2024-05-06T07:08:10.000Z" false "policy" []).1 = .ok false :=
  ⟨rfl, rfl⟩

/-- C4, amended. On a host whose built-in prototypes have no member named
`news…`, whenever the loaded value is an object, `updateCategoryNews` returns
true exactly when the write succeeds and the object has a truthy member named
`category` (own, or inherited from `Object.prototype`), and false exactly
when there is no such member or the write fails; in particular it returns
false for a category that is neither an own member nor a member of
`Object.prototype`. -/
theorem updateCategoryNews_returns (R : Host) (hR : NewsFree R) (store : Store)
    (tLoad tSave : String) (writeOk : Bool) (category : String) (newsArray : List Val)
    (fs : List (String × Json)) (hd : loadData store tLoad = .obj fs) :
    ((updateCategoryNews R store tLoad tSave writeOk category newsArray).1 = .ok true
        ↔ hasMember fs category = true ∧ writeOk = true)
    ∧ ((updateCategoryNews R store tLoad tSave writeOk category newsArray).1 = .ok false
        ↔ hasMember fs category = false ∨ writeOk = false)
    ∧ (lookup fs category = none → category ∉ objectPrototype →
        (updateCategoryNews R store tLoad tSave writeOk category newsArray).1 = .ok false) := by
  have h := updateCategoryNews_result R hR store tLoad tSave writeOk category newsArray fs hd
  rw [h]
  refine ⟨?_, ?_, ?_⟩
  · cases hasMember fs category <;> cases writeOk <;> simp
  · cases hasMember fs category <;> cases writeOk <;> simp
  · intro hl hp
    simp [hasMember, hl, hp]

/-- C4 amended, on a fresh store with a successful write and the category
`date`. -/
theorem updateCategoryNews_returns_witness :
    ((updateCategoryNews sampleHost none "2024-05-06T07:08:09.000Z"
        "2024-05-06T07:08:10.000Z" true "date" [.json (.obj [("title", .str "A")])]).1
          = .ok true
        ↔ hasMember [("date", .str "2024-05-06"),
            ("lastUpdate", .str "2024-05-06T07:08:09.000Z"), ("policy", defaultSection),
            ("industry", defaultSection), ("tech", defaultSection)] "date" = true
          ∧ true = true)
    ∧ ((updateCategoryNews sampleHost none "2024-05-06T07:08:09.000Z"
        "2024-05-06T07:08:10.000Z" true "date" [.json (.obj [("title", .str "A")])]).1
          = .ok false
        ↔ hasMember [("date", .str "2024-05-06"),
            ("lastUpdate", .str "2024-05-06T07:08:09.000Z"), ("policy", defaultSection),
            ("industry", defaultSection), ("tech", defaultSection)] "date" = false
          ∨ true = false)
    ∧ (lookup [("date", .str "2024-05-06"),
            ("lastUpdate", .str "2024-05-06T07:08:09.000Z"), ("policy", defaultSection),
            ("industry", defaultSection), ("tech", defaultSection)] "date" = none →
        "date" ∉ objectPrototype →
        (updateCategoryNews sampleHost none "2024-05-06T07:08:09.000Z"
          "2024-05-06T07:08:10.000Z" true "date" [.json (.obj [("title", .str "A")])]).1
            = .ok false) :=
  updateCategoryNews_returns sampleHost sampleHost_newsFree none "2024-05-06T07:08:09.000Z"
    "2024-05-06T07:08:10.000Z" true "date" _ _ rfl

/-- C9. If every section of the stored digest has exactly the slots `news1`,
`news2`, `news3`, then after `updateSingleNews` and after
`updateCategoryNews`, with any category, slot number, title, link and list of
items, on any host, whether or not the write succeeds, the stored digest is
again an object in which every section has exactly these slots; and every
member of it other than `lastUpdate` is present exactly when it was before,
is an object exactly when it was before, and then has the same field names in
the same order: no update adds or removes a slot or a section. -/
theorem updates_keep_three_slots (R : Host) (store : Store) (tLoad tSave t' : String)
    (writeOk : Bool) (category : String) (newsNumber : JsNumber) (title link : String)
    (newsArray : List Val) (h : ThreeSlots (loadData store tLoad)) :
    ∃ fs, loadData store tLoad = .obj fs
      ∧ (∃ fs', loadData
            (updateSingleNews R store tLoad tSave writeOk category newsNumber title link).2 t'
            = .obj fs'
          ∧ ThreeSlots (.obj fs')
          ∧ ∀ k, k ≠ "lastUpdate" → slotNames (lookup fs' k) = slotNames (lookup fs k))
      ∧ (∃ fs', loadData
            (updateCategoryNews R store tLoad tSave writeOk category newsArray).2 t'
            = .obj fs'
          ∧ ThreeSlots (.obj fs')
          ∧ ∀ k, k ≠ "lastUpdate" → slotNames (lookup fs' k) = slotNames (lookup fs k)) := by
  obtain ⟨fs, hd, hsec⟩ := h
  have hfs : ThreeSlots (.obj fs) := ⟨fs, rfl, hsec⟩
  have hsame : ∀ store', store' = store →
      ∃ fs', loadData store' t' = .obj fs' ∧ ThreeSlots (.obj fs')
        ∧ ∀ k, k ≠ "lastUpdate" → slotNames (lookup fs' k) = slotNames (lookup fs k) := by
    intro store' he
    subst he
    obtain ⟨fs', hd', hk⟩ := slotNames_loadData store' tLoad t' fs hd
    exact ⟨fs', hd', threeSlots_of_slotNames fs fs' hfs fun k _ => hk k, fun k _ => hk k⟩
  have hwritten : ∀ store' fs₁, SameKeys fs fs₁ →
      store' = some (.json (.obj (setField fs₁ "lastUpdate" (.str tSave)))) →
      ∃ fs', loadData store' t' = .obj fs' ∧ ThreeSlots (.obj fs')
        ∧ ∀ k, k ≠ "lastUpdate" → slotNames (lookup fs' k) = slotNames (lookup fs k) := by
    intro store' fs₁ hk he
    subst he
    have hn : ∀ k, k ≠ "lastUpdate" →
        slotNames (lookup (setField fs₁ "lastUpdate" (.str tSave)) k)
          = slotNames (lookup fs k) := by
      intro k hne
      rw [lookup_setField_of_ne _ _ _ _ hne]
      exact slotNames_of_sameSlots _ _ (hk k)
    exact ⟨_, rfl, threeSlots_of_slotNames fs _ hfs hn, hn⟩
  refine ⟨fs, hd, ?_, ?_⟩
  · rcases updateSingleNews_store R store tLoad tSave writeOk category newsNumber title link
      fs hd with he | ⟨fs₁, hk, he⟩
    · exact hsame _ he
    · exact hwritten _ fs₁ hk he
  · rcases updateCategoryNews_store R store tLoad tSave writeOk category newsArray
      fs hd with he | ⟨fs₁, hk, he⟩
    · exact hsame _ he
    · exact hwritten _ fs₁ hk he

/-- C9, on a fresh store with the category `policy`, slot 2 and four items. -/
theorem updates_keep_three_slots_witness :
    ∃ fs, loadData none "2024-05-06T07:08:09.000Z" = .obj fs
      ∧ (∃ fs', loadData
            (updateSingleNews sampleHost none "2024-05-06T07:08:09.000Z"
              "2024-05-06T07:08:10.000Z" true "policy" ⟨"2"⟩ "T" "L").2
            "2024-05-06T07:08:11.000Z" = .obj fs'
          ∧ ThreeSlots (.obj fs')
          ∧ ∀ k, k ≠ "lastUpdate" → slotNames (lookup fs' k) = slotNames (lookup fs k))
      ∧ (∃ fs', loadData
            (updateCategoryNews sampleHost none "2024-05-06T07:08:09.000Z"
              "2024-05-06T07:08:10.000Z" true "policy"
              [.json (.obj [("title", .str "A")]), .undefined, .json (.str "x"),
                .json (.obj [("link", .str "X")])]).2
            "2024-05-06T07:08:11.000Z" = .obj fs'
          ∧ ThreeSlots (.obj fs')
          ∧ ∀ k, k ≠ "lastUpdate" → slotNames (lookup fs' k) = slotNames (lookup fs k)) :=
  updates_keep_three_slots sampleHost none "2024-05-06T07:08:09.000Z"
    "2024-05-06T07:08:10.000Z" "2024-05-06T07:08:11.000Z" true "policy" ⟨"2"⟩ "T" "L" _
    (threeSlots_getDefaultData _)

/-- C10. When the loaded digest has the digest shape, `generateMarkdown`
returns the header followed by the heading `## 📊 宏观政策` and the three lines
`i. [title](link)` of policy, then `## 💼 产经动态` with those of industry,
then `## 🔬 产技创新` with those of tech, each line built from the slot
`news<i>` of its section; in particular the output contains the line of
`policy.news1`. -/
theorem generateMarkdown_lines (R : Host) (store : Store) (now : String) (D : NewsDigest)
    (hshape : DigestShape (loadData store now) D) :
    generateMarkdown R store now
      = .ok ("# 光伏早报 " ++ R.monthDay (.json (.str D.date)) ++ "\n\n"
          ++ "> 30秒速读前沿新闻\n\n"
          ++ "## 📊 宏观政策\n"
          ++ markdownLine "1" D.policy.news1 ++ "\n"
          ++ markdownLine "2" D.policy.news2 ++ "\n"
          ++ markdownLine "3" D.policy.news3 ++ "\n\n"
          ++ "## 💼 产经动态\n"
          ++ markdownLine "1" D.industry.news1 ++ "\n"
          ++ markdownLine "2" D.industry.news2 ++ "\n"
          ++ markdownLine "3" D.industry.news3 ++ "\n\n"
          ++ "## 🔬 产技创新\n"
          ++ markdownLine "1" D.tech.news1 ++ "\n"
          ++ markdownLine "2" D.tech.news2 ++ "\n"
          ++ markdownLine "3" D.tech.news3 ++ "\n")
    ∧ ∃ before after, generateMarkdown R store now
        = .ok (before ++ markdownLine "1" D.policy.news1 ++ after) := by
  obtain ⟨fs, hd, hdate, -, hp, hi, ht⟩ := hshape
  have hrun : generateMarkdown R store now
      = .ok ("# 光伏早报 " ++ R.monthDay (.json (.str D.date)) ++ "\n\n"
          ++ "> 30秒速读前沿新闻\n\n"
          ++ "## 📊 宏观政策\n"
          ++ markdownLine "1" D.policy.news1 ++ "\n"
          ++ markdownLine "2" D.policy.news2 ++ "\n"
          ++ markdownLine "3" D.policy.news3 ++ "\n\n"
          ++ "## 💼 产经动态\n"
          ++ markdownLine "1" D.industry.news1 ++ "\n"
          ++ markdownLine "2" D.industry.news2 ++ "\n"
          ++ markdownLine "3" D.industry.news3 ++ "\n\n"
          ++ "## 🔬 产技创新\n"
          ++ markdownLine "1" D.tech.news1 ++ "\n"
          ++ markdownLine "2" D.tech.news2 ++ "\n"
          ++ markdownLine "3" D.tech.news3 ++ "\n") := by
    have e2 : "\n\n" = "\n" ++ "\n" := by decide
    simp only [generateMarkdown, hd, dateStr_shape R fs _ hdate,
      linkLines_shape R fs _ _ hp, linkLines_shape R fs _ _ hi, linkLines_shape R fs _ _ ht]
    simp only [e2, String.append_assoc]
  refine ⟨hrun, "# 光伏早报 " ++ R.monthDay (.json (.str D.date)) ++ "\n\n"
          ++ "> 30秒速读前沿新闻\n\n" ++ "## 📊 宏观政策\n",
      "\n" ++ markdownLine "2" D.policy.news2 ++ "\n"
          ++ markdownLine "3" D.policy.news3 ++ "\n\n"
          ++ "## 💼 产经动态\n"
          ++ markdownLine "1" D.industry.news1 ++ "\n"
          ++ markdownLine "2" D.industry.news2 ++ "\n"
          ++ markdownLine "3" D.industry.news3 ++ "\n\n"
          ++ "## 🔬 产技创新\n"
          ++ markdownLine "1" D.tech.news1 ++ "\n"
          ++ markdownLine "2" D.tech.news2 ++ "\n"
          ++ markdownLine "3" D.tech.news3 ++ "\n", ?_⟩
  rw [hrun]
  simp only [String.append_assoc]

/-- C10, at the specification's example: with `policy.news1` holding the title
`Foo` and the link `http://x`, the output contains `1. [Foo](http://x)`. -/
theorem generateMarkdown_lines_witness :
    ∃ before after, generateMarkdown sampleHost (some (.json sampleDigest.toJson))
        "2024-05-06T07:08:10.000Z" = .ok (before ++ "1. [Foo](http://x)" ++ after) :=
  (generateMarkdown_lines sampleHost (some (.json sampleDigest.toJson))
    "2024-05-06T07:08:10.000Z" sampleDigest (digestShape_toJson sampleDigest)).2

/-- C7, refuted as stated. `importFromJSON` accepts the text `{}`, a valid
JSON value without the section `policy`, and stores it; `generateAPIData` then
raises a `TypeError` on the read `data.policy.news1`. And on a fresh store,
whose digest is well shaped, `updateCategoryNews("policy", x)` with an `x`
that is not an array raises a `TypeError` at `newsArray.forEach`. -/
theorem generateAPIData_raises_on_imported_object :
    (importFromJSON none "2024-05-06T07:08:09.000Z" true (some (.json (.obj [])))).2
        = some (.json (.obj [("lastUpdate", .str "2024-05-06T07:08:09.000Z")]))
    ∧ generateAPIData sampleHost
        (importFromJSON none "2024-05-06T07:08:09.000Z" true (some (.json (.obj [])))).2
        "2024-05-06T07:08:10.000Z" = .error .typeError
    ∧ updateCategoryNewsWith sampleHost none "2024-05-06T07:08:09.000Z"
        "2024-05-06T07:08:10.000Z" true "policy" .notArray = (.error .typeError, none) :=
  ⟨rfl, rfl, rfl⟩

/-- C7, amended. On a host whose built-in prototypes have no member named
`news…`, each operation returns a value rather than raising exactly in these
cases.
`loadData`: for every store content (the stored JSON value or the default
digest).
`updateSingleNews`, `updateCategoryNews` with an array argument, `isToday`:
exactly when the loaded value is not `null`, for every category, slot number,
title, link and array of items.
`getLastUpdateTime`: exactly when the loaded value is not `null` and its own
member `lastUpdate`, if any, converts to a primitive.
When the loaded value is an object: `updateCategoryNews` with an argument that
is not an array, exactly when the object has no truthy member `category` (it
then returns false); `generateAPIData`, exactly when the three sections are
present and not `null`; `generateWeChatMessage`, exactly when the date
converts and every slot of every section is a member other than `null` whose
title converts; `generateMarkdown`, exactly when moreover the link of every
slot converts. -/
theorem operations_return (R : Host) (hR : NewsFree R) (store : Store)
    (t tSave now : String) (writeOk : Bool) (category : String) (newsNumber : JsNumber)
    (title link : String) (items : List Val) :
    (∀ (s : Store) (u : String),
        (∃ j, s = some (.json j) ∧ loadData s u = j) ∨ loadData s u = getDefaultData u)
    ∧ ((∃ b, (updateSingleNews R store t tSave writeOk category newsNumber title link).1
          = .ok b) ↔ loadData store t ≠ .null)
    ∧ ((∃ b, (updateCategoryNewsWith R store t tSave writeOk category (.array items)).1
          = .ok b) ↔ loadData store t ≠ .null)
    ∧ ((∃ b, isToday R store t now = .ok b) ↔ loadData store t ≠ .null)
    ∧ ((∃ u, getLastUpdateTime R store t = .ok u)
        ↔ loadData store t ≠ .null
          ∧ convertible (ownProperty (loadData store t) "lastUpdate") = true)
    ∧ (∀ fs, loadData store t = .obj fs →
        ((∃ b, (updateCategoryNewsWith R store t tSave writeOk category .notArray).1
            = .ok b) ↔ hasMember fs category = false)
        ∧ ((∃ a, generateAPIData R store t = .ok a) ↔ SectionsPresent fs)
        ∧ ((∃ m, generateWeChatMessage R store t = .ok m)
            ↔ convertible (lookup fs "date") = true ∧ SlotsReadable fs ["title"])
        ∧ ((∃ m, generateMarkdown R store t = .ok m)
            ↔ convertible (lookup fs "date") = true ∧ SlotsReadable fs ["title", "link"])) := by
  refine ⟨?_, updateSingleNews_ok_iff R hR store t tSave writeOk category newsNumber title link,
    updateCategoryNews_ok_iff R hR store t tSave writeOk category items,
    isToday_ok_iff R store t now, getLastUpdateTime_iff R store t, ?_⟩
  · intro s u
    cases s with
    | none => exact Or.inr rfl
    | some x =>
      cases x with
      | empty => exact Or.inr rfl
      | malformed => exact Or.inr rfl
      | json j => exact Or.inl ⟨j, rfl, rfl⟩
  · intro fs hd
    exact ⟨notArray_ok_iff R store t tSave writeOk category fs hd,
      generateAPIData_ok_iff R store t fs hd,
      generateWeChatMessage_ok_iff R hR store t fs hd,
      generateMarkdown_ok_iff R hR store t fs hd⟩

/-- C7 amended, on an empty store, which loads as the default digest: every
operation returns a value, and `updateCategoryNews` with an argument that is
not an array does so for a category the digest does not have. -/
theorem operations_return_witness :
    (∃ b, (updateSingleNews sampleHost none "2024-05-06T07:08:09.000Z"
        "2024-05-06T07:08:10.000Z" true "nonexistent" ⟨"1"⟩ "T" "L").1 = .ok b)
    ∧ (∃ b, (updateCategoryNewsWith sampleHost none "2024-05-06T07:08:09.000Z"
        "2024-05-06T07:08:10.000Z" true "nonexistent"
        (.array [.json (.str "x"), .undefined])).1 = .ok b)
    ∧ (∃ b, isToday sampleHost none "2024-05-06T07:08:09.000Z" "2024-05-06T07:08:11.000Z"
        = .ok b)
    ∧ (∃ u, getLastUpdateTime sampleHost none "2024-05-06T07:08:09.000Z" = .ok u)
    ∧ (∃ b, (updateCategoryNewsWith sampleHost none "2024-05-06T07:08:09.000Z"
        "2024-05-06T07:08:10.000Z" true "nonexistent" .notArray).1 = .ok b)
    ∧ (∃ a, generateAPIData sampleHost none "2024-05-06T07:08:09.000Z" = .ok a)
    ∧ (∃ m, generateWeChatMessage sampleHost none "2024-05-06T07:08:09.000Z" = .ok m)
    ∧ (∃ m, generateMarkdown sampleHost none "2024-05-06T07:08:09.000Z" = .ok m) :=
  have hshape := digestShape_toJson freshDigest
  have hall := (operations_return sampleHost sampleHost_newsFree none
    "2024-05-06T07:08:09.000Z" "2024-05-06T07:08:10.000Z" "2024-05-06T07:08:11.000Z" true
    "nonexistent" ⟨"1"⟩ "T" "L" [.json (.str "x"), .undefined]).2
  have hobj := hall.2.2.2.2 _ rfl
  have hread := slotsReadable_of_digestShape _ _ hshape
  ⟨hall.1.mpr (by intro h; cases h), hall.2.1.mpr (by intro h; cases h),
    hall.2.2.1.mpr (by intro h; cases h),
    hall.2.2.2.1.mpr ⟨(by intro h; cases h), rfl⟩,
    hobj.1.mpr rfl,
    hobj.2.1.mpr (sectionsPresent_of_digestShape _ _ hshape),
    hobj.2.2.1.mpr ⟨rfl, slotsReadable_mono _ _ _ (by simp) hread⟩,
    hobj.2.2.2.mpr ⟨rfl, hread⟩⟩

end DailyNews
